import Mathlib

/-!
# FPC1020 fingerprint sensor driver

A shallow embedding of `drivers/input/misc/fpc1020_tee.c`.

* The driver context `struct fpc1020_data` is the structure `fpc1020_data`.
* Everything the driver reaches through kernel services (clock framework,
  regulator framework, interrupt controller, GPIO, sysfs, work queue,
  scheduler) is the structure `Hw`: the physical on/off state of the two
  clocks and the ordered list of calls the driver has issued so far.
* The result of a kernel call is not decided by the driver, so every driver
  function takes the outcomes of the calls it may make as an argument
  (`ClkEnv`, `VregEnv`, the GPIO line value, the process list).
* The work item `pm_work` is a single slot: its pending bit is a field of the
  context, `cancel_work_sync` clears it, `queue_work` sets it, and the worker
  clears it and runs the body.  `run_pm_work` is the worker running the body in
  one piece; `Sys` puts the worker, in four steps, next to the notifier thread,
  statement by statement, under a schedule, with `cancel_work_sync` waiting
  while an instance of the work is running.
* C `int` fields are integers.  The only arithmetic on them is `++` and `--`
  on `clocks_enabled`, which wraps at 32 bits as in a kernel build
  (`wrap_int`).
* `dev_dbg` and `dev_err` only write to the kernel log and are left out.
  `spin_lock`/`spin_unlock` do not appear in the sequential functions; where
  two calls run at once the locked region is one atomic step.
-/

namespace Fpc1020

/-! ## Hardware side -/

/-- The two clock handles of the driver context, `core_clk` and `iface_clk`. -/
inductive Clk
  | core_clk
  | iface_clk
deriving DecidableEq, Repr

/-- An interrupt number; the driver only ever names one as
`gpio_to_irq(gpio)`, which is kept symbolic. -/
inductive Irq
  | gpio_to_irq (gpio : Int)
deriving DecidableEq, Repr

/-- One call from the driver into a kernel service, with its arguments.
`regulator_get` also records the pointer it handed back. -/
inductive HwCall
  | clk_set_rate (clk : Clk) (rate : Nat)
  | clk_prepare_enable (clk : Clk)
  | clk_disable_unprepare (clk : Clk)
  | enable_irq (irq : Irq)
  | disable_irq (irq : Irq)
  | gpio_get_value (gpio : Int)
  | regulator_get (name : String) (ret : Option Nat)
  | regulator_count_voltages (vreg : Nat)
  | regulator_set_voltage (vreg : Nat) (vmin vmax : Nat)
  | regulator_set_optimum_mode (vreg : Nat) (ua_load : Int)
  | regulator_enable (vreg : Nat)
  | regulator_is_enabled (vreg : Nat)
  | regulator_disable (vreg : Nat)
  | regulator_put (vreg : Nat)
  | enable_irq_wake (irq : Irq)
  | disable_irq_wake (irq : Irq)
  | sysfs_notify (attr : String)
  | sysfs_remove_group
  | input_free_device (input : Nat)
  | set_user_nice (pid : Nat) (nice : Int)
  | pm_wakeup_event (msec : Nat)
  | cancel_work_sync
  | queue_work
deriving DecidableEq, Repr

/-- Physical clock state and the calls issued so far, oldest first. -/
structure Hw where
  core_clk_on : Bool
  iface_clk_on : Bool
  trace : List HwCall
deriving DecidableEq, Repr

/-- Record a call at the end of the trace. -/
def Hw.emit (hw : Hw) (c : HwCall) : Hw :=
  { hw with trace := hw.trace ++ [c] }

/-- Switch the given clock. -/
def Hw.set_clk (hw : Hw) (clk : Clk) (running : Bool) : Hw :=
  match clk with
  | .core_clk => { hw with core_clk_on := running }
  | .iface_clk => { hw with iface_clk_on := running }

/-- `clk_set_rate(clk, rate)` returning `rc`. -/
def clk_set_rate (hw : Hw) (clk : Clk) (rate : Nat) (rc : Int) : Int × Hw :=
  (rc, hw.emit (.clk_set_rate clk rate))

/-- `clk_prepare_enable(clk)` returning `rc`: the clock runs afterwards when
the call succeeds and is left as it was when it fails. -/
def clk_prepare_enable (hw : Hw) (clk : Clk) (rc : Int) : Int × Hw :=
  (rc, if rc = 0 then (hw.emit (.clk_prepare_enable clk)).set_clk clk true
       else hw.emit (.clk_prepare_enable clk))

/-- `clk_disable_unprepare(clk)`: the clock is stopped. -/
def clk_disable_unprepare (hw : Hw) (clk : Clk) : Hw :=
  (hw.emit (.clk_disable_unprepare clk)).set_clk clk false

/-- Outcomes of the clock framework calls one `__set_clks(enable = true)`
can make. -/
structure ClkEnv where
  set_rate_rc : Int
  core_enable_rc : Int
  iface_enable_rc : Int
deriving DecidableEq, Repr

/-- Every clock call succeeds. -/
def ClkEnv.ok : ClkEnv := ⟨0, 0, 0⟩

/-! ## Driver context -/

/-- The fields of `struct fpc1020_data` the driver logic reads or writes.
`vreg` is the three-slot regulator array (`none` is `NULL`), `max_speed_hz`
is `spi->max_speed_hz`, `input` is the `input` pointer, and `pm_work_pending`
is the pending bit of the work item `pm_work`: set while the work is queued and
has not yet started to run. -/
structure fpc1020_data where
  vreg : Fin 3 → Option Nat
  input : Option Nat
  pm_work_pending : Bool
  irq_disabled : Bool
  clocks_enabled : Int
  clocks_suspended : Int
  screen_off : Bool
  irq_gpio : Int
  rst_gpio : Int
  max_speed_hz : Nat

/-- The context as `fpc1020_probe` leaves it before any clock is touched:
zeroed by `devm_kzalloc`, the two GPIO numbers and the SPI device filled in,
`clocks_enabled = clocks_suspended = 0`. -/
def attach_state (irq_gpio rst_gpio : Int) (max_speed_hz : Nat) : fpc1020_data :=
  { vreg := fun _ => none
    input := none
    pm_work_pending := false
    irq_disabled := false
    clocks_enabled := 0
    clocks_suspended := 0
    screen_off := false
    irq_gpio := irq_gpio
    rst_gpio := rst_gpio
    max_speed_hz := max_speed_hz }

/-- The hardware at attach: both clocks stopped, nothing called yet. -/
def Hw.attach : Hw := ⟨false, false, []⟩

/-- The NUL byte that ends a C string. -/
def NUL : Char := Char.ofNat 0

/-! ## Clock gate -/

/-- `__set_clks`: the physical enable or disable sequence. -/
def __set_clks (f : fpc1020_data) (hw : Hw) (env : ClkEnv) (enable : Bool) : Int × Hw :=
  if enable then
    let r1 := clk_set_rate hw .core_clk f.max_speed_hz env.set_rate_rc
    if r1.1 ≠ 0 then r1
    else
      let r2 := clk_prepare_enable r1.2 .core_clk env.core_enable_rc
      if r2.1 ≠ 0 then r2
      else
        let r3 := clk_prepare_enable r2.2 .iface_clk env.iface_enable_rc
        if r3.1 ≠ 0 then (r3.1, clk_disable_unprepare r3.2 .core_clk)
        else r3
  else
    (0, clk_disable_unprepare (clk_disable_unprepare hw .iface_clk) .core_clk)

/-- The value a 32-bit C `int` holds after an arithmetic result `x`: two's
complement wrap-around, `INT_MAX + 1` being `INT_MIN`. -/
def wrap_int (x : Int) : Int :=
  (x + 2147483648) % 4294967296 - 2147483648

/-- `set_clks`: the counted enable or disable; `++` and `--` act on the C
`int` field `clocks_enabled`. -/
def set_clks (f : fpc1020_data) (hw : Hw) (env : ClkEnv) (enable : Bool) :
    Int × fpc1020_data × Hw :=
  if !enable then
    if f.clocks_enabled = 0 then (0, f, hw)
    else
      let f1 := { f with clocks_enabled := wrap_int (f.clocks_enabled - 1) }
      if f1.clocks_enabled = 0 then
        let r := __set_clks f1 hw env enable
        (r.1, f1, r.2)
      else (0, f1, hw)
  else
    if f.clocks_enabled ≠ 0 then
      (0, { f with clocks_enabled := wrap_int (f.clocks_enabled + 1) }, hw)
    else
      let f1 := { f with clocks_enabled := wrap_int (f.clocks_enabled + 1) }
      let r := __set_clks f1 hw env enable
      (r.1, f1, r.2)

/-- `clk_enable_set`: the `clk_enable` sysfs store.  `*buf` is the first byte
written (NUL for an empty buffer); the result is `set_clks(...) ?: count`. -/
def clk_enable_set (f : fpc1020_data) (hw : Hw) (env : ClkEnv) (buf : List Char)
    (count : Nat) : Int × fpc1020_data × Hw :=
  let r := set_clks f hw env (buf.headD NUL == '1')
  (if r.1 ≠ 0 then r.1 else (count : Int), r.2)

/-- A sequence of `set_clks` calls, each with the outcomes of its clock
calls, run from left to right. -/
def run_set_clks (calls : List (Bool × ClkEnv)) (s : fpc1020_data × Hw) :
    fpc1020_data × Hw :=
  calls.foldl (fun s c => (set_clks s.1 s.2 c.2 c.1).2) s

/-- `set_fpc_irq`: swap the logical flag, then toggle the interrupt line only
when the flag changed. -/
def set_fpc_irq (f : fpc1020_data) (hw : Hw) (enable : Bool) : fpc1020_data × Hw :=
  let irq_disabled := f.irq_disabled
  let f1 := { f with irq_disabled := !enable }
  if enable = !irq_disabled then (f1, hw)
  else if enable then (f1, hw.emit (.enable_irq (.gpio_to_irq f1.irq_gpio)))
  else (f1, hw.emit (.disable_irq (.gpio_to_irq f1.irq_gpio)))

/-- `gpio_get_value(gpio)` reading `value` from the line. -/
def gpio_get_value (hw : Hw) (gpio : Int) (value : Int) : Int × Hw :=
  (value, hw.emit (.gpio_get_value gpio))

/-- `scnprintf(buf, size, ...)` for an already formatted text: at most
`size - 1` characters are stored (the terminating NUL takes the last place);
the number stored is the return value. -/
def scnprintf (size : Nat) (text : List Char) : List Char :=
  text.take (size - 1)

/-- The format `"%d\n"`. -/
def fmt_d_nl (v : Int) : List Char :=
  (toString v).data ++ ['\n']

/-- `irq_get`: the `irq` sysfs show.  `line_value` is what the GPIO line
reads; `&&` does not read the line when the IRQ is logically disabled.
Returns the count, the buffer contents, and the context and hardware after. -/
def irq_get (f : fpc1020_data) (hw : Hw) (line_value : Int) (PAGE_SIZE : Nat) :
    Int × List Char × fpc1020_data × Hw :=
  let irq_disabled := f.irq_disabled
  let r := if !irq_disabled then gpio_get_value hw f.irq_gpio line_value else (0, hw)
  let irq : Int := if !irq_disabled && r.1 ≠ 0 then 1 else 0
  let buf := scnprintf PAGE_SIZE (fmt_d_nl irq)
  ((buf.length : Int), buf, f, r.2)

/-- Number of `enable_irq` calls in a trace. -/
def enable_irq_calls (t : List HwCall) : Nat :=
  (t.filter (fun c => match c with | .enable_irq _ => true | _ => false)).length

/-! ## Power resource set -/

/-- `struct vreg_config`. -/
structure vreg_config where
  name : String
  vmin : Nat
  vmax : Nat
  ua_load : Int
deriving DecidableEq, Repr

/-- The table `vreg_conf[]`, indexed `0..2`. -/
def vreg_conf : Fin 3 → vreg_config
  | 0 => ⟨"vdd_ana", 1800000, 1800000, 6000⟩
  | 1 => ⟨"vcc_spi", 1800000, 1800000, 10⟩
  | 2 => ⟨"vdd_io", 1800000, 1800000, 6000⟩

/-- The errno values the driver returns negated. -/
def EINVAL : Int := 22

/-- See `EINVAL`. -/
def ENODEV : Int := 19

/-- `strlen`: characters before the first NUL (the end of the list is one). -/
def strlen : List Char → Nat
  | [] => 0
  | c :: cs => if c = NUL then 0 else strlen cs + 1

/-- `strncmp(a, b, n)`: compare at most `n` characters, stopping after a NUL;
`0` when equal, else the difference of the first two characters that differ.
Reading past the end of a list reads the terminating NUL. -/
def strncmp : List Char → List Char → Nat → Int
  | _, _, 0 => 0
  | a, b, n + 1 =>
    let ca := a.headD NUL
    let cb := b.headD NUL
    if ca ≠ cb then (ca.toNat : Int) - (cb.toNat : Int)
    else if ca = NUL then 0
    else strncmp a.tail b.tail n

/-- The lookup loop of `vreg_setup`: the first index `i` with
`!strncmp(vreg_conf[i].name, name, strlen(vreg_conf[i].name))`, or `none` when
the loop runs off the end of the table. -/
def vreg_lookup (name : String) : Option (Fin 3) :=
  ([0, 1, 2] : List (Fin 3)).find? fun i =>
    strncmp (vreg_conf i).name.data name.data (strlen (vreg_conf i).name.data) == 0

/-- Prefix lookup in the spec's words: the first entry of the ordered table
whose name is a prefix of the requested name. -/
def first_prefix_entry (name : String) : Option (Fin 3) :=
  ([0, 1, 2] : List (Fin 3)).find? fun i => (vreg_conf i).name.data.isPrefixOf name.data

/-- Outcomes of the regulator framework calls one `vreg_setup` can make:
the pointer `regulator_get` returns (`none` is `NULL`, anything else is taken
for a handle) and the return values of the other calls.  The results of
`regulator_set_voltage` and `regulator_set_optimum_mode` only decide whether a
message is logged. -/
structure VregEnv where
  get_ret : Option Nat
  count_voltages : Int
  set_voltage_rc : Int
  set_mode_rc : Int
  enable_rc : Int
  is_enabled : Int
deriving DecidableEq, Repr

/-- `vreg_setup`: enable or release the regulator the name selects. -/
def vreg_setup (f : fpc1020_data) (hw : Hw) (env : VregEnv) (name : String)
    (enable : Bool) : Int × fpc1020_data × Hw :=
  match vreg_lookup name with
  | none => (-EINVAL, f, hw)
  | some i =>
    let vreg := f.vreg i
    if enable then
      let g : Option Nat × Hw :=
        match vreg with
        | none => (env.get_ret, hw.emit (.regulator_get name env.get_ret))
        | some v => (some v, hw)
      match g.1 with
      | none => (-ENODEV, f, g.2)
      | some v =>
        let hw1 := g.2.emit (.regulator_count_voltages v)
        let hw2 :=
          if env.count_voltages > 0 then
            hw1.emit (.regulator_set_voltage v (vreg_conf i).vmin (vreg_conf i).vmax)
          else hw1
        let hw3 := hw2.emit (.regulator_set_optimum_mode v (vreg_conf i).ua_load)
        let hw4 := hw3.emit (.regulator_enable v)
        let rc := env.enable_rc
        if rc ≠ 0 then
          (rc, { f with vreg := Function.update f.vreg i none }, hw4.emit (.regulator_put v))
        else
          (rc, { f with vreg := Function.update f.vreg i (some v) }, hw4)
    else
      match vreg with
      | some v =>
        let hw1 := hw.emit (.regulator_is_enabled v)
        let hw2 := if env.is_enabled ≠ 0 then hw1.emit (.regulator_disable v) else hw1
        (0, { f with vreg := Function.update f.vreg i none }, hw2.emit (.regulator_put v))
      | none => (0, f, hw)

/-! ## Detach, suspend and resume -/

/-- The calls one release (`vreg_setup(name, false)`) makes for a slot: none
for an empty slot; for a slot holding `v` the query, the disable when the
query answers non-zero, and the put. -/
def release_calls (slot : Option Nat) (env : VregEnv) : List HwCall :=
  match slot with
  | none => []
  | some v =>
    [HwCall.regulator_is_enabled v]
      ++ (if env.is_enabled ≠ 0 then [HwCall.regulator_disable v] else [])
      ++ [HwCall.regulator_put v]


/-- Outcomes of the regulator calls of the three `vreg_setup` calls that
`fpc1020_remove` makes, in call order. -/
structure RemoveEnv where
  vdd_io : VregEnv
  vcc_spi : VregEnv
  vdd_ana : VregEnv
deriving DecidableEq, Repr

/-- `fpc1020_remove`: free the input device if there is one, remove the sysfs
group, and release the three regulators. -/
def fpc1020_remove (f : fpc1020_data) (hw : Hw) (env : RemoveEnv) :
    Int × fpc1020_data × Hw :=
  let hw1 :=
    match f.input with
    | some d => hw.emit (.input_free_device d)
    | none => hw
  let hw2 := hw1.emit .sysfs_remove_group
  let r1 := vreg_setup f hw2 env.vdd_io "vdd_io" false
  let r2 := vreg_setup r1.2.1 r1.2.2 env.vcc_spi "vcc_spi" false
  let r3 := vreg_setup r2.2.1 r2.2.2 env.vdd_ana "vdd_ana" false
  (0, r3.2.1, r3.2.2)

/-- `fpc1020_suspend`: remember the counter, stop the clocks when it is
non-zero, arm the wake-up interrupt. -/
def fpc1020_suspend (f : fpc1020_data) (hw : Hw) (env : ClkEnv) :
    Int × fpc1020_data × Hw :=
  let f1 := { f with clocks_suspended := f.clocks_enabled }
  let hw1 := if f1.clocks_suspended ≠ 0 then (__set_clks f1 hw env false).2 else hw
  (0, f1, hw1.emit (.enable_irq_wake (.gpio_to_irq f1.irq_gpio)))

/-- `fpc1020_resume`: start the clocks again when the remembered counter is
non-zero (the result of `__set_clks` is dropped), disarm the wake-up
interrupt. -/
def fpc1020_resume (f : fpc1020_data) (hw : Hw) (env : ClkEnv) :
    Int × fpc1020_data × Hw :=
  let hw1 := if f.clocks_suspended ≠ 0 then (__set_clks f hw env true).2 else hw
  (0, f, hw1.emit (.disable_irq_wake (.gpio_to_irq f.irq_gpio)))

/-! ## Display-state reconciler -/

/-- The notifier action `FB_EARLY_EVENT_BLANK` of `linux/fb.h`. -/
def FB_EARLY_EVENT_BLANK : Nat := 16

/-- The blank code `FB_BLANK_UNBLANK` of `linux/fb.h`. -/
def FB_BLANK_UNBLANK : Int := 0

/-- The blank code `FB_BLANK_POWERDOWN` of `linux/fb.h`. -/
def FB_BLANK_POWERDOWN : Int := 4

/-- The lowest niceness, `MIN_NICE`. -/
def MIN_NICE : Int := -20

/-- A process as `set_fingerprint_hal_nice` sees it: its `comm` bytes and its
niceness; `pid` tells processes apart in the call trace. -/
structure Proc where
  pid : Nat
  comm : List Char
  nice : Int
deriving DecidableEq, Repr

/-- `memcmp(a, b, n)`: compare exactly `n` bytes; `0` when all are equal, else
the difference of the first two that differ.  A byte past the end of a list
is NUL (the terminator of a literal, the padding of `comm`). -/
def memcmp : List Char → List Char → Nat → Int
  | _, _, 0 => 0
  | a, b, n + 1 =>
    let ca := a.headD NUL
    let cb := b.headD NUL
    if ca ≠ cb then (ca.toNat : Int) - (cb.toNat : Int)
    else memcmp a.tail b.tail n

/-- The loop of `set_fingerprint_hal_nice` over the process list: the first
process whose first 9 `comm` bytes are `"fps_work"` and its NUL gets the
niceness, and the loop stops there.  Returns the calls made and the process
list afterwards. -/
def set_fingerprint_hal_nice_loop (nice : Int) : List Proc → List HwCall × List Proc
  | [] => ([], [])
  | p :: ps =>
    if memcmp p.comm "fps_work".data 9 = 0 then
      ([.set_user_nice p.pid nice], { p with nice := nice } :: ps)
    else
      let r := set_fingerprint_hal_nice_loop nice ps
      (r.1, p :: r.2)

/-- `set_fingerprint_hal_nice(nice)` on the process list `procs`. -/
def set_fingerprint_hal_nice (hw : Hw) (procs : List Proc) (nice : Int) : Hw × List Proc :=
  let r := set_fingerprint_hal_nice_loop nice procs
  ({ hw with trace := hw.trace ++ r.1 }, r.2)

/-- `fpc1020_suspend_resume`: the body of the work item `pm_work`. -/
def fpc1020_suspend_resume (f : fpc1020_data) (hw : Hw) (procs : List Proc) :
    fpc1020_data × Hw × List Proc :=
  if f.screen_off then
    let r := set_fingerprint_hal_nice hw procs MIN_NICE
    (f, r.1.emit (.sysfs_notify "screen_state"), r.2)
  else
    let s := set_fpc_irq f hw true
    let r := set_fingerprint_hal_nice s.2 procs 0
    (s.1, r.1.emit (.sysfs_notify "screen_state"), r.2)

/-- `cancel_work_sync(&f->pm_work)`: takes the work off the queue.  The call
does not return while an instance of the work is running; that is the guard
in `sys_step`. -/
def cancel_work_sync (f : fpc1020_data) (hw : Hw) : fpc1020_data × Hw :=
  ({ f with pm_work_pending := false }, hw.emit .cancel_work_sync)

/-- `queue_work(system_highpri_wq, &f->pm_work)`: sets the pending bit; a work
item that is already pending is not queued a second time. -/
def queue_work (f : fpc1020_data) (hw : Hw) : fpc1020_data × Hw :=
  ({ f with pm_work_pending := true }, hw.emit .queue_work)

/-- The worker picking up `pm_work`: when the work is pending the bit is
cleared and the body runs; otherwise nothing happens. -/
def run_pm_work (f : fpc1020_data) (hw : Hw) (procs : List Proc) :
    fpc1020_data × Hw × List Proc :=
  if f.pm_work_pending then
    fpc1020_suspend_resume { f with pm_work_pending := false } hw procs
  else (f, hw, procs)

/-- The three kinds of statement in the body of `fb_notifier_callback`. -/
inductive NotifOp
  | cancel_work_sync
  | set_screen_off (v : Bool)
  | queue_work
deriving DecidableEq, Repr

/-- The statements `fb_notifier_callback` executes, in program order, for the
notifier `action` and the blank code `*blank` of the event. -/
def fb_notifier_ops (action : Nat) (blank : Int) : List NotifOp :=
  if action ≠ FB_EARLY_EVENT_BLANK then []
  else if blank = FB_BLANK_UNBLANK then
    [.cancel_work_sync, .set_screen_off false, .queue_work]
  else if blank = FB_BLANK_POWERDOWN then
    [.cancel_work_sync, .set_screen_off true, .queue_work]
  else []

/-- One statement of `fb_notifier_callback` executed on the context. -/
def notif_op_step (s : fpc1020_data × Hw) : NotifOp → fpc1020_data × Hw
  | .cancel_work_sync => cancel_work_sync s.1 s.2
  | .set_screen_off v => ({ s.1 with screen_off := v }, s.2)
  | .queue_work => queue_work s.1 s.2

/-- `fb_notifier_callback` run without the worker in between: its statements
one after the other; the result is 0. -/
def fb_notifier_callback (f : fpc1020_data) (hw : Hw) (action : Nat) (blank : Int) :
    Int × fpc1020_data × Hw :=
  (0, (fb_notifier_ops action blank).foldl notif_op_step (f, hw))

/-- `fpc1020_irq_handler`; the result is `IRQ_HANDLED`. -/
def fpc1020_irq_handler (f : fpc1020_data) (hw : Hw) : Int × fpc1020_data × Hw :=
  let hw1 := if f.screen_off then hw.emit (.pm_wakeup_event 1000) else hw
  (1, f, hw1.emit (.sysfs_notify "irq"))

/-- `dev_enable_set`: the `dev_enable` sysfs store; it only logs. -/
def dev_enable_set (f : fpc1020_data) (hw : Hw) (_buf : List Char) (_count : Nat) :
    Int × fpc1020_data × Hw :=
  (1, f, hw)

/-- `screen_state_get`: the `screen_state` sysfs show. -/
def screen_state_get (f : fpc1020_data) (hw : Hw) (PAGE_SIZE : Nat) :
    Int × List Char × fpc1020_data × Hw :=
  let buf := scnprintf PAGE_SIZE (fmt_d_nl (if !f.screen_off then 1 else 0))
  ((buf.length : Int), buf, f, hw)

/-- The name of a process: its `comm` bytes before the first NUL. -/
def Proc.name (p : Proc) : List Char :=
  p.comm.takeWhile fun c => c != NUL

/-- Priority change in the spec's words: the first process named exactly
`name` gets the niceness, every other process is left as it is. -/
def renice_first_named (name : List Char) (nice : Int) : List Proc → List Proc
  | [] => []
  | p :: ps =>
    if p.name = name then { p with nice := nice } :: ps
    else p :: renice_first_named name nice ps

/-- The `set_user_nice` call that goes with `renice_first_named`: one call for
the first process named exactly `name`, none when there is no such process. -/
def renice_calls (name : List Char) (nice : Int) (procs : List Proc) : List HwCall :=
  match procs.find? fun p => p.name = name with
  | some p => [HwCall.set_user_nice p.pid nice]
  | none => []

/-- Number of handles a list of calls acquires: the `regulator_get` calls that
returned a handle. -/
def handles_acquired (t : List HwCall) : Nat :=
  (t.filter fun c => match c with
    | .regulator_get _ (some _) => true
    | _ => false).length

/-- Number of handles a list of calls releases: the `regulator_put` calls. -/
def handles_released (t : List HwCall) : Nat :=
  (t.filter fun c => match c with
    | .regulator_put _ => true
    | _ => false).length

/-- One `vreg_setup` call of a sequence: its arguments and the outcomes of
its regulator calls. -/
structure VregCall where
  name : String
  enable : Bool
  env : VregEnv
deriving DecidableEq, Repr

/-- A slot counts 1 when it holds a handle and 0 when it is empty. -/
def slot_count (slot : Option Nat) : Int :=
  if slot.isSome then 1 else 0

/-- One `vreg_setup` call together with the bookkeeping of live handles: the
handles the call acquires and releases (read off the calls it added to the
trace) are booked on the table entry its name selects. -/
def vreg_setup_tracked (s : fpc1020_data × Hw × (Fin 3 → Int)) (c : VregCall) :
    fpc1020_data × Hw × (Fin 3 → Int) :=
  let r := vreg_setup s.1 s.2.1 c.env c.name c.enable
  let added := r.2.2.trace.drop s.2.1.trace.length
  let live :=
    match vreg_lookup c.name with
    | none => s.2.2
    | some i =>
      Function.update s.2.2 i
        (s.2.2 i + (handles_acquired added : Int) - (handles_released added : Int))
  (r.2.1, r.2.2, live)

/-- A sequence of `vreg_setup` calls run from left to right with the
bookkeeping of `vreg_setup_tracked`. -/
def run_vreg_setup (calls : List VregCall) (s : fpc1020_data × Hw × (Fin 3 → Int)) :
    fpc1020_data × Hw × (Fin 3 → Int) :=
  calls.foldl vreg_setup_tracked s

/-- The effect of one successful clock call on the pair (core clock running,
interface clock running); other calls leave the pair alone. -/
def clk_after (st : Bool × Bool) : HwCall → Bool × Bool
  | .clk_prepare_enable .core_clk => (true, st.2)
  | .clk_prepare_enable .iface_clk => (st.1, true)
  | .clk_disable_unprepare .core_clk => (false, st.2)
  | .clk_disable_unprepare .iface_clk => (st.1, false)
  | _ => st

/-- The clock pair after a list of successful calls, from the pair `st`. -/
def clk_replay (t : List HwCall) (st : Bool × Bool) : Bool × Bool :=
  t.foldl clk_after st

/-- The ordering requirement on a clock pair: the interface clock does not run
while the core clock is stopped. -/
def clk_ordered (st : Bool × Bool) : Prop :=
  st.2 = true → st.1 = true

/-- What a run of successful `set_clks` calls from the attach state maintains
about its trace: replaying it from both clocks off gives the present clock
state, between calls the two clocks are in the same state, and after every
prefix of the trace the clock pair is ordered. -/
def clk_trace_inv (s : fpc1020_data × Hw) : Prop :=
  clk_replay s.2.trace (false, false) = (s.2.core_clk_on, s.2.iface_clk_on) ∧
    s.2.core_clk_on = s.2.iface_clk_on ∧
    ∀ k, clk_ordered (clk_replay (s.2.trace.take k) (false, false))

/-! ## Two `set_fpc_irq` calls at once -/

/-- The part of `set_fpc_irq` between `spin_lock` and `spin_unlock`: read the
flag into the local `irq_disabled`, write the new flag. -/
def set_fpc_irq_locked (f : fpc1020_data) (enable : Bool) : Bool × fpc1020_data :=
  (f.irq_disabled, { f with irq_disabled := !enable })

/-- The part of `set_fpc_irq` after `spin_unlock`, working on the local
`irq_disabled`. -/
def set_fpc_irq_unlocked (f : fpc1020_data) (hw : Hw) (enable irq_disabled : Bool) : Hw :=
  if enable = !irq_disabled then hw
  else if enable then hw.emit (.enable_irq (.gpio_to_irq f.irq_gpio))
  else hw.emit (.disable_irq (.gpio_to_irq f.irq_gpio))

/-- Where a thread stands inside one `set_fpc_irq(enable)` call: before the
lock, past the unlock with its local copy of the old flag, or returned. -/
inductive IrqThread
  | entered (enable : Bool)
  | unlocked (enable : Bool) (irq_disabled : Bool)
  | returned
deriving DecidableEq, Repr

/-- One step of a thread: the locked region is one step (the spinlock keeps
the other thread out of it), the code after the unlock is the next. -/
def irq_thread_step (f : fpc1020_data) (hw : Hw) : IrqThread → fpc1020_data × Hw × IrqThread
  | .entered enable =>
    ((set_fpc_irq_locked f enable).2, hw, .unlocked enable (set_fpc_irq_locked f enable).1)
  | .unlocked enable irq_disabled =>
    (f, set_fpc_irq_unlocked f hw enable irq_disabled, .returned)
  | .returned => (f, hw, .returned)

/-- The entry points through which the driver is entered after attach, with
what the environment supplies to each. -/
inductive Entry
  | dev_enable_set (buf : List Char) (count : Nat)
  | clk_enable_set (env : ClkEnv) (buf : List Char) (count : Nat)
  | irq_get (line_value : Int) (PAGE_SIZE : Nat)
  | screen_state_get (PAGE_SIZE : Nat)
  | fb_notifier_callback (action : Nat) (blank : Int)
  | pm_work (procs : List Proc)
  | irq_handler
  | suspend (env : ClkEnv)
  | resume (env : ClkEnv)
deriving DecidableEq, Repr

/-- The context and hardware after one entry. -/
def entry_step (s : fpc1020_data × Hw) : Entry → fpc1020_data × Hw
  | .dev_enable_set buf count => (dev_enable_set s.1 s.2 buf count).2
  | .clk_enable_set env buf count => (clk_enable_set s.1 s.2 env buf count).2
  | .irq_get line_value PAGE_SIZE => (irq_get s.1 s.2 line_value PAGE_SIZE).2.2
  | .screen_state_get PAGE_SIZE => (screen_state_get s.1 s.2 PAGE_SIZE).2.2
  | .fb_notifier_callback action blank => (fb_notifier_callback s.1 s.2 action blank).2
  | .pm_work procs => ((run_pm_work s.1 s.2 procs).1, (run_pm_work s.1 s.2 procs).2.1)
  | .irq_handler => (fpc1020_irq_handler s.1 s.2).2
  | .suspend env => (fpc1020_suspend s.1 s.2 env).2
  | .resume env => (fpc1020_resume s.1 s.2 env).2

/-- A sequence of entries run from left to right. -/
def run_entries (es : List Entry) (s : fpc1020_data × Hw) : fpc1020_data × Hw :=
  es.foldl entry_step s

/-- No call in the list is `enable_irq` or `disable_irq`. -/
def no_irq_toggle (t : List HwCall) : Bool :=
  t.all fun c => match c with
    | .enable_irq _ => false
    | .disable_irq _ => false
    | _ => true

/-! ## Notifier and worker side by side -/

/-- Where the worker stands with `pm_work`: not running it; picked it up (the
pending bit is cleared, the body has not started); past the test of
`f->screen_off`, holding the value it read; past the priority and IRQ
adjustments, with the notification still to come. -/
inductive Worker
  | idle
  | picked
  | branched (screen_off : Bool)
  | acted (screen_off : Bool)
deriving DecidableEq, Repr

/-- One step of the worker: pick the work up when it is pending, or run the
next part of the body of `fpc1020_suspend_resume`. -/
def worker_step (f : fpc1020_data) (hw : Hw) (procs : List Proc) :
    Worker → fpc1020_data × Hw × List Proc × Worker
  | .idle =>
    if f.pm_work_pending then ({ f with pm_work_pending := false }, hw, procs, .picked)
    else (f, hw, procs, .idle)
  | .picked => (f, hw, procs, .branched f.screen_off)
  | .branched true =>
    let r := set_fingerprint_hal_nice hw procs MIN_NICE
    (f, r.1, r.2, .acted true)
  | .branched false =>
    let s := set_fpc_irq f hw true
    let r := set_fingerprint_hal_nice s.2 procs 0
    (s.1, r.1, r.2, .acted false)
  | .acted _ => (f, hw.emit (.sysfs_notify "screen_state"), procs, .idle)

/-- The driver context and hardware together with the worker and the notifier
thread: `ops` are the statements of `fb_notifier_callback` the notifier thread
has still to execute. -/
structure Sys where
  f : fpc1020_data
  hw : Hw
  procs : List Proc
  worker : Worker
  ops : List NotifOp

/-- One step of the system: the worker takes its next step, or the notifier
thread executes its next statement.  `cancel_work_sync` waits for a running
instance of the work: while the worker is not idle the notifier thread stays
where it is. -/
def sys_step (st : Sys) (worker_turn : Bool) : Sys :=
  if worker_turn then
    let r := worker_step st.f st.hw st.procs st.worker
    { st with f := r.1, hw := r.2.1, procs := r.2.2.1, worker := r.2.2.2 }
  else
    match st.ops with
    | [] => st
    | op :: rest =>
      if op = .cancel_work_sync ∧ st.worker ≠ .idle then st
      else
        let r := notif_op_step (st.f, st.hw) op
        { st with f := r.1, hw := r.2, ops := rest }

/-- The system under a schedule: `true` is a turn of the worker, `false` a turn
of the notifier thread. -/
def sys_run (sched : List Bool) (st : Sys) : Sys :=
  sched.foldl sys_step st

/-- Number of completed runs of the work body (notifications on
`screen_state`) since the last `queue_work` in a trace. -/
def runs_since_queue (t : List HwCall) : Nat :=
  t.foldl
    (fun n c =>
      if c = .queue_work then 0
      else if c = .sysfs_notify "screen_state" then n + 1
      else n)
    0

/-- Runs of the work that are still to complete: one when the work is pending
plus one when the worker is inside it. -/
def runs_outstanding (st : Sys) : Nat :=
  (if st.f.pm_work_pending then 1 else 0) + (if st.worker = .idle then 0 else 1)

/-- The state of affairs once an unblank notification has returned: the
display is recorded as on, no instance of the work that read
`screen_off = true` is in flight, and exactly one run of the work has been
completed since the last `queue_work` or is still to complete. -/
def display_on_settled (st : Sys) : Prop :=
  st.f.screen_off = false ∧ st.worker ≠ .branched true ∧ st.worker ≠ .acted true ∧
    runs_outstanding st + runs_since_queue st.hw.trace = 1

/-- The worker is idle and nothing is queued. -/
def quiescent (st : Sys) : Prop :=
  st.f.pm_work_pending = false ∧ st.worker = .idle

/-- What holds along any execution whose notifier thread ends with the
statements of an unblank notification, by what is left of them. -/
def unblank_inv (st : Sys) : Prop :=
  (∃ pre, st.ops = pre ++ [.cancel_work_sync, .set_screen_off false, .queue_work]) ∨
  (st.ops = [.set_screen_off false, .queue_work] ∧ quiescent st) ∨
  (st.ops = [.queue_work] ∧ quiescent st ∧ st.f.screen_off = false) ∨
  (st.ops = [] ∧ display_on_settled st)

/-! # Theorems -/

/-! ## Clock gate: counted enable and disable -/

/-- Inside the range of a C `int` nothing wraps. -/
theorem wrap_int_of_range (x : Int) (h1 : -2147483648 ≤ x) (h2 : x < 2147483648) :
    wrap_int x = x := by
  unfold wrap_int
  omega

/-- `0` does not wrap. -/
theorem wrap_int_zero : wrap_int 0 = 0 := by decide

/-- `1` does not wrap. -/
theorem wrap_int_one : wrap_int 1 = 1 := by decide

/-- One `set_clks` call, whatever its clock calls return, keeps a
non-negative counter below `INT_MAX` non-negative and raises it by at most
one. -/
theorem set_clks_nonneg (f : fpc1020_data) (hw : Hw) (env : ClkEnv) (enable : Bool)
    (h : 0 ≤ f.clocks_enabled) (hb : f.clocks_enabled < 2147483647) :
    0 ≤ (set_clks f hw env enable).2.1.clocks_enabled ∧
    (set_clks f hw env enable).2.1.clocks_enabled ≤ f.clocks_enabled + 1 := by
  have hinc : wrap_int (f.clocks_enabled + 1) = f.clocks_enabled + 1 :=
    wrap_int_of_range _ (by omega) (by omega)
  cases enable
  · by_cases hz : f.clocks_enabled = 0
    · simp [set_clks, hz]
    · have hdec : wrap_int (f.clocks_enabled - 1) = f.clocks_enabled - 1 :=
        wrap_int_of_range _ (by omega) (by omega)
      by_cases h1 : f.clocks_enabled - 1 = 0
      · simp [set_clks, hz, hdec, h1, wrap_int_zero]
        omega
      · simp only [set_clks, hz, hdec, h1, Bool.not_false, if_true, if_false]
        constructor <;> omega
  · by_cases hz : f.clocks_enabled = 0
    · simp [set_clks, hz, wrap_int_one]
    · simp only [set_clks, hz, hinc, Bool.not_true, if_true, if_false, ne_eq,
        not_false_eq_true, Bool.false_eq_true]
      constructor <;> omega

/-- A run of `set_clks` calls keeps a non-negative counter non-negative, as
long as the counter plus the number of calls stays inside the range of a C
`int`. -/
theorem run_set_clks_nonneg (calls : List (Bool × ClkEnv)) (s : fpc1020_data × Hw)
    (h : 0 ≤ s.1.clocks_enabled) (hb : s.1.clocks_enabled + calls.length < 2147483648) :
    0 ≤ (run_set_clks calls s).1.clocks_enabled := by
  induction calls generalizing s with
  | nil => simpa [run_set_clks] using h
  | cons c cs ih =>
    simp only [List.length_cons] at hb
    push_cast at hb
    have hstep := set_clks_nonneg s.1 s.2 c.2 c.1 h (by omega)
    have := ih (set_clks s.1 s.2 c.2 c.1).2 hstep.1 (by omega)
    simpa [run_set_clks] using this

/-- A disable never takes a non-negative counter below 0. -/
theorem set_clks_disable_nonneg (f : fpc1020_data) (hw : Hw) (env : ClkEnv)
    (h : 0 ≤ f.clocks_enabled) (hb : f.clocks_enabled < 2147483648) :
    0 ≤ (set_clks f hw env false).2.1.clocks_enabled := by
  by_cases hz : f.clocks_enabled = 0
  · simp [set_clks, hz]
  · have hdec : wrap_int (f.clocks_enabled - 1) = f.clocks_enabled - 1 :=
      wrap_int_of_range _ (by omega) (by omega)
    by_cases h1 : f.clocks_enabled - 1 = 0
    · simp [set_clks, hz, hdec, h1, wrap_int_zero]
    · simp only [set_clks, hz, hdec, h1, Bool.not_false, if_true, if_false]
      omega

/-- C2 as stated fails: with the counter at `INT_MAX` and the clocks running,
one `set_clks(enable = true)` returns 0 and leaves `clocks_enabled` at
`INT_MIN`, a negative value. -/
theorem set_clks_enable_at_int_max_goes_negative :
    (0 : Int) ≤ ({ attach_state 17 18 4800000 with
        clocks_enabled := 2147483647 } : fpc1020_data).clocks_enabled ∧
    (set_clks { attach_state 17 18 4800000 with clocks_enabled := 2147483647 }
        ⟨true, true, []⟩ ClkEnv.ok true).1 = 0 ∧
    (set_clks { attach_state 17 18 4800000 with clocks_enabled := 2147483647 }
        ⟨true, true, []⟩ ClkEnv.ok true).2.1.clocks_enabled = -2147483648 ∧
    (set_clks { attach_state 17 18 4800000 with clocks_enabled := 2147483647 }
        ⟨true, true, []⟩ ClkEnv.ok true).2.1.clocks_enabled < 0 := by
  decide

/-- C2 amended: with `clocks_enabled = 0`, `set_clks(enable = false)` returns
0, leaves the context (so the counter) as it was and issues no hardware call;
a `clk_enable` write whose first byte is not `'1'` (such as `'0'`) then
returns the written length; a disable never takes a non-negative counter
below 0; and no sequence of `set_clks` calls, whatever the clock calls return,
takes a non-negative counter below 0 as long as the counter plus the number of
calls stays below `2^31` (only an enable at `INT_MAX` wraps the counter). -/
theorem set_clks_disable_at_zero_is_noop (f : fpc1020_data) (hw : Hw) (env : ClkEnv)
    (h : f.clocks_enabled = 0) :
    set_clks f hw env false = (0, f, hw) ∧
    (∀ (buf : List Char) (count : Nat), buf.headD NUL ≠ '1' →
      clk_enable_set f hw env buf count = ((count : Int), f, hw)) ∧
    (∀ (g : fpc1020_data) (hw2 : Hw) (env2 : ClkEnv), 0 ≤ g.clocks_enabled →
      g.clocks_enabled < 2147483648 →
      0 ≤ (set_clks g hw2 env2 false).2.1.clocks_enabled) ∧
    (∀ (s : fpc1020_data × Hw) (calls : List (Bool × ClkEnv)), 0 ≤ s.1.clocks_enabled →
      s.1.clocks_enabled + calls.length < 2147483648 →
      0 ≤ (run_set_clks calls s).1.clocks_enabled) := by
  have hnoop : set_clks f hw env false = (0, f, hw) := by simp [set_clks, h]
  refine ⟨hnoop, ?_, ?_, ?_⟩
  · intro buf count hb
    have hb2 : (buf.headD NUL == '1') = false := by simpa using hb
    simp only [clk_enable_set, hb2, hnoop]
    simp
  · intro g hw2 env2 hg hgb
    exact set_clks_disable_nonneg g hw2 env2 hg hgb
  · intro s calls hs hb
    exact run_set_clks_nonneg calls s hs hb

/-- Witness for C2 amended: the attach state, a write of `"0"` of length 1,
and three calls of which the first fails. -/
theorem set_clks_disable_at_zero_is_noop_witness :
    (attach_state 17 18 4800000).clocks_enabled = 0 ∧
    clk_enable_set (attach_state 17 18 4800000) Hw.attach ClkEnv.ok ['0'] 1
      = (1, attach_state 17 18 4800000, Hw.attach) ∧
    0 ≤ (run_set_clks [(true, ⟨-22, 0, 0⟩), (false, ClkEnv.ok), (false, ClkEnv.ok)]
          (attach_state 17 18 4800000, Hw.attach)).1.clocks_enabled :=
  ⟨rfl,
   (set_clks_disable_at_zero_is_noop (attach_state 17 18 4800000) Hw.attach ClkEnv.ok
      rfl).2.1 ['0'] 1 (by decide),
   (set_clks_disable_at_zero_is_noop (attach_state 17 18 4800000) Hw.attach ClkEnv.ok
      rfl).2.2.2 _ _ (by decide) (by decide)⟩

/-! ## Clock gate: failure paths -/

/-- C3: when `__set_clks(enable = true)` is entered with both clocks off and
returns non-zero, both clocks are off on return, and one of three cases holds:
the rate call failed, its code is returned and no enable call was made; the
core enable failed, its code is returned and the interface clock was not
touched; or the interface enable failed after the core enable succeeded, its
code is returned and the core clock was disabled again first. -/
theorem set_clks_enable_failure_rolls_back (f : fpc1020_data) (hw : Hw) (env : ClkEnv)
    (hcore : hw.core_clk_on = false) (hiface : hw.iface_clk_on = false)
    (hrc : (__set_clks f hw env true).1 ≠ 0) :
    ((__set_clks f hw env true).2.core_clk_on = false ∧
      (__set_clks f hw env true).2.iface_clk_on = false) ∧
    ((env.set_rate_rc ≠ 0 ∧ (__set_clks f hw env true).1 = env.set_rate_rc ∧
        (__set_clks f hw env true).2.trace
          = hw.trace ++ [.clk_set_rate .core_clk f.max_speed_hz]) ∨
     (env.set_rate_rc = 0 ∧ env.core_enable_rc ≠ 0 ∧
        (__set_clks f hw env true).1 = env.core_enable_rc ∧
        (__set_clks f hw env true).2.trace
          = hw.trace ++ [.clk_set_rate .core_clk f.max_speed_hz,
              .clk_prepare_enable .core_clk]) ∨
     (env.set_rate_rc = 0 ∧ env.core_enable_rc = 0 ∧ env.iface_enable_rc ≠ 0 ∧
        (__set_clks f hw env true).1 = env.iface_enable_rc ∧
        (__set_clks f hw env true).2.trace
          = hw.trace ++ [.clk_set_rate .core_clk f.max_speed_hz,
              .clk_prepare_enable .core_clk, .clk_prepare_enable .iface_clk,
              .clk_disable_unprepare .core_clk])) := by
  by_cases h1 : env.set_rate_rc = 0
  · by_cases h2 : env.core_enable_rc = 0
    · by_cases h3 : env.iface_enable_rc = 0
      · exact absurd (by simp [__set_clks, clk_set_rate, clk_prepare_enable, h1, h2, h3]) hrc
      · simp [__set_clks, clk_set_rate, clk_prepare_enable, clk_disable_unprepare,
          Hw.emit, Hw.set_clk, h1, h2, h3, hiface]
    · simp [__set_clks, clk_set_rate, clk_prepare_enable, Hw.emit, h1, h2, hcore, hiface]
  · simp [__set_clks, clk_set_rate, Hw.emit, h1, hcore, hiface]

/-- Witness for C3: the interface clock enable fails with `-5` after the rate
and the core enable succeeded. -/
theorem set_clks_enable_failure_rolls_back_witness :
    (__set_clks (attach_state 17 18 4800000) Hw.attach ⟨0, 0, -5⟩ true).1 ≠ 0 ∧
    (__set_clks (attach_state 17 18 4800000) Hw.attach ⟨0, 0, -5⟩ true).2.core_clk_on
      = false ∧
    (__set_clks (attach_state 17 18 4800000) Hw.attach ⟨0, 0, -5⟩ true).2.iface_clk_on
      = false :=
  ⟨by decide,
   (set_clks_enable_failure_rolls_back (attach_state 17 18 4800000) Hw.attach ⟨0, 0, -5⟩
      rfl rfl (by decide)).1⟩

/-- C4 (the code at the failing input): from the attach state, with
`clk_set_rate` failing with `-EINVAL`, `set_clks(enable = true)` returns `-22`
with both clocks off and no enable call made, yet `clocks_enabled` is 1; a
following `set_clks(enable = true)` whose clock calls would all succeed then
returns 0 without any hardware call and the clocks stay off. -/
theorem set_clks_failed_enable_keeps_count :
    (set_clks (attach_state 17 18 4800000) Hw.attach ⟨-22, 0, 0⟩ true).1 = -22 ∧
    (set_clks (attach_state 17 18 4800000) Hw.attach ⟨-22, 0, 0⟩ true).2.1.clocks_enabled
      = 1 ∧
    (set_clks (attach_state 17 18 4800000) Hw.attach ⟨-22, 0, 0⟩ true).2.2
      = ⟨false, false, [.clk_set_rate .core_clk 4800000]⟩ ∧
    (set_clks (set_clks (attach_state 17 18 4800000) Hw.attach ⟨-22, 0, 0⟩ true).2.1
        (set_clks (attach_state 17 18 4800000) Hw.attach ⟨-22, 0, 0⟩ true).2.2
        ClkEnv.ok true).1 = 0 ∧
    (set_clks (set_clks (attach_state 17 18 4800000) Hw.attach ⟨-22, 0, 0⟩ true).2.1
        (set_clks (attach_state 17 18 4800000) Hw.attach ⟨-22, 0, 0⟩ true).2.2
        ClkEnv.ok true).2.2
      = ⟨false, false, [.clk_set_rate .core_clk 4800000]⟩ := by
  decide

/-! ## IRQ gate -/

/-- C5: `set_fpc_irq(enable)` changes only `irq_disabled`, which becomes
`!enable`; when `enable` equals the logical state before the call
(`!irq_disabled`) it issues no hardware call, and when it differs it issues
exactly one, `enable_irq` for `enable = true` and `disable_irq` for
`enable = false`, on `gpio_to_irq(irq_gpio)`. -/
theorem set_fpc_irq_toggles_on_change (f : fpc1020_data) (hw : Hw) (enable : Bool) :
    (set_fpc_irq f hw enable).1 = { f with irq_disabled := !enable } ∧
    (enable = (!f.irq_disabled) → (set_fpc_irq f hw enable).2 = hw) ∧
    (enable ≠ (!f.irq_disabled) →
      (set_fpc_irq f hw enable).2.trace
        = hw.trace ++ [if enable then HwCall.enable_irq (.gpio_to_irq f.irq_gpio)
                       else HwCall.disable_irq (.gpio_to_irq f.irq_gpio)]) := by
  cases enable <;> cases hd : f.irq_disabled <;> simp [set_fpc_irq, hd, Hw.emit]

/-- C6 as stated fails: from the attach state, where the IRQ is logically
enabled, two `set_fpc_irq(true)` calls in a row issue no `enable_irq` call. -/
theorem set_fpc_irq_twice_from_enabled_issues_none :
    enable_irq_calls
      (set_fpc_irq (set_fpc_irq (attach_state 17 18 4800000) Hw.attach true).1
        (set_fpc_irq (attach_state 17 18 4800000) Hw.attach true).2 true).2.trace = 0 ∧
    enable_irq_calls
      (set_fpc_irq (set_fpc_irq (attach_state 17 18 4800000) Hw.attach true).1
        (set_fpc_irq (attach_state 17 18 4800000) Hw.attach true).2 true).2.trace ≠ 1 := by
  decide

/-- C6 amended: `set_fpc_irq(true)` followed immediately by `set_fpc_irq(true)`
issues exactly one `enable_irq` call, and nothing else, when the IRQ was
logically disabled before the first call, and no hardware call at all when it
was logically enabled; the IRQ is logically enabled afterwards. -/
theorem set_fpc_irq_twice_enables_at_most_once (f : fpc1020_data) (hw : Hw) :
    (set_fpc_irq (set_fpc_irq f hw true).1 (set_fpc_irq f hw true).2 true).2.trace
      = hw.trace ++
          (if f.irq_disabled then [HwCall.enable_irq (.gpio_to_irq f.irq_gpio)] else []) ∧
    enable_irq_calls
        (set_fpc_irq (set_fpc_irq f hw true).1 (set_fpc_irq f hw true).2 true).2.trace
      = enable_irq_calls hw.trace + (if f.irq_disabled then 1 else 0) ∧
    (set_fpc_irq (set_fpc_irq f hw true).1 (set_fpc_irq f hw true).2 true).1.irq_disabled
      = false := by
  cases hd : f.irq_disabled <;> simp [set_fpc_irq, hd, Hw.emit, enable_irq_calls]

/-- C7: with a page of at least 3 bytes, `irq_get` writes exactly `"1\n"` when
the IRQ is logically enabled and the GPIO line reads non-zero, and exactly
`"0\n"` otherwise (so always `"0\n"` when `irq_disabled` is set); it returns
the length 2, leaves the context and the clocks as they were, and its only
hardware call is the read of the GPIO line, made when the IRQ is logically
enabled. -/
theorem irq_get_reports_gated_line (f : fpc1020_data) (hw : Hw) (line_value : Int)
    (PAGE_SIZE : Nat) (hpage : 3 ≤ PAGE_SIZE) :
    (f.irq_disabled = false ∧ line_value ≠ 0 →
      (irq_get f hw line_value PAGE_SIZE).2.1 = ['1', '\n']) ∧
    (¬ (f.irq_disabled = false ∧ line_value ≠ 0) →
      (irq_get f hw line_value PAGE_SIZE).2.1 = ['0', '\n']) ∧
    (f.irq_disabled = true → (irq_get f hw line_value PAGE_SIZE).2.1 = ['0', '\n']) ∧
    (irq_get f hw line_value PAGE_SIZE).1 = 2 ∧
    (irq_get f hw line_value PAGE_SIZE).2.2.1 = f ∧
    (irq_get f hw line_value PAGE_SIZE).2.2.2.core_clk_on = hw.core_clk_on ∧
    (irq_get f hw line_value PAGE_SIZE).2.2.2.iface_clk_on = hw.iface_clk_on ∧
    (irq_get f hw line_value PAGE_SIZE).2.2.2.trace
      = hw.trace ++ (if f.irq_disabled then [] else [HwCall.gpio_get_value f.irq_gpio]) := by
  have h1 : fmt_d_nl 1 = ['1', '\n'] := by decide
  have h0 : fmt_d_nl 0 = ['0', '\n'] := by decide
  have ht : ∀ a b : Char, List.take (PAGE_SIZE - 1) [a, b] = [a, b] := by
    intro a b
    apply List.take_of_length_le
    simp
    omega
  cases hd : f.irq_disabled
  · by_cases hl : line_value = 0
    · simp [irq_get, hd, hl, gpio_get_value, scnprintf, h0, ht, Hw.emit]
    · simp [irq_get, hd, hl, gpio_get_value, scnprintf, h1, ht, Hw.emit]
  · simp [irq_get, hd, scnprintf, h0, ht]

/-- Witness for C7: a 4096-byte page, the IRQ logically enabled and the line
reading 1. -/
theorem irq_get_reports_gated_line_witness :
    3 ≤ 4096 ∧
    (irq_get (attach_state 17 18 4800000) Hw.attach 1 4096).2.1 = ['1', '\n'] ∧
    (irq_get (attach_state 17 18 4800000) Hw.attach 1 4096).1 = 2 :=
  ⟨by decide,
   (irq_get_reports_gated_line (attach_state 17 18 4800000) Hw.attach 1 4096
      (by decide)).1 ⟨rfl, by decide⟩,
   (irq_get_reports_gated_line (attach_state 17 18 4800000) Hw.attach 1 4096
      (by decide)).2.2.2.1⟩

/-! ## Power resource set: name lookup -/

/-- Characters with the same code are equal. -/
theorem char_eq_of_toNat_eq (c d : Char) (h : c.toNat = d.toNat) : c = d := by
  rw [← Char.ofNat_toNat c, ← Char.ofNat_toNat d, h]

/-- Without a NUL inside, `strlen` is the length. -/
theorem strlen_eq_length (n : List Char) (h : NUL ∉ n) : strlen n = n.length := by
  induction n with
  | nil => rfl
  | cons c cs ih =>
    have hc : c ≠ NUL := fun e => h (by simp [e])
    have hcs : NUL ∉ cs := fun e => h (by simp [e])
    simp [strlen, hc, ih hcs]

/-- Comparing the whole of a NUL-free `n` against `b` gives 0 exactly when `n`
is a prefix of `b`. -/
theorem strncmp_eq_zero_iff_prefix (n b : List Char) (h : NUL ∉ n) :
    strncmp n b n.length = 0 ↔ n <+: b := by
  induction n generalizing b with
  | nil => simp [strncmp]
  | cons c cs ih =>
    have hc : c ≠ NUL := fun e => h (by simp [e])
    have hcs : NUL ∉ cs := fun e => h (by simp [e])
    cases b with
    | nil =>
      have hne : (c.toNat : Int) - (NUL.toNat : Int) ≠ 0 := by
        intro e
        have : c.toNat = NUL.toNat := by omega
        exact hc (char_eq_of_toNat_eq _ _ this)
      simp [strncmp, hc, hne]
    | cons d ds =>
      by_cases hcd : c = d
      · subst hcd
        simp [strncmp, hc, ih ds hcs, List.cons_prefix_cons]
      · have hne : (c.toNat : Int) - (d.toNat : Int) ≠ 0 := by
          intro e
          have : c.toNat = d.toNat := by omega
          exact hcd (char_eq_of_toNat_eq _ _ this)
        simp [strncmp, hcd, hne, List.cons_prefix_cons]

/-- The test the lookup loop makes on entry `i` is the prefix test. -/
theorem lookup_test_eq_isPrefixOf (i : Fin 3) (name : String) :
    (strncmp (vreg_conf i).name.data name.data (strlen (vreg_conf i).name.data) == 0)
      = (vreg_conf i).name.data.isPrefixOf name.data := by
  have hnul : NUL ∉ (vreg_conf i).name.data := by fin_cases i <;> decide
  rw [strlen_eq_length _ hnul, Bool.eq_iff_iff, beq_iff_eq, List.isPrefixOf_iff_prefix]
  exact strncmp_eq_zero_iff_prefix _ _ hnul

/-- The lookup loop finds the first table entry whose name is a prefix. -/
theorem vreg_lookup_eq_first_prefix_entry (name : String) :
    vreg_lookup name = first_prefix_entry name := by
  simp only [vreg_lookup, first_prefix_entry, lookup_test_eq_isPrefixOf]

/-- A table name selects its own entry. -/
theorem vreg_lookup_table_name (i : Fin 3) : vreg_lookup (vreg_conf i).name = some i := by
  fin_cases i <;> decide

/-- No two table names are prefixes of one requested name. -/
theorem table_prefix_unique (name : List Char) (i j : Fin 3)
    (hi : (vreg_conf i).name.data <+: name) (hj : (vreg_conf j).name.data <+: name) :
    i = j := by
  rcases List.prefix_or_prefix_of_prefix hi hj with h | h
  · revert h; fin_cases i <;> fin_cases j <;> decide
  · revert h; fin_cases i <;> fin_cases j <;> decide

/-- The lookup selects entry `i` exactly when the name of entry `i` is a prefix
of the requested name. -/
theorem vreg_lookup_eq_some_iff (name : String) (i : Fin 3) :
    vreg_lookup name = some i ↔ (vreg_conf i).name.data <+: name.data := by
  rw [vreg_lookup_eq_first_prefix_entry]
  constructor
  · intro h
    have := List.find?_some h
    exact List.isPrefixOf_iff_prefix.mp this
  · intro h
    cases hf : first_prefix_entry name with
    | none =>
      have hall := List.find?_eq_none.mp hf i (by fin_cases i <;> simp)
      exact absurd (List.isPrefixOf_iff_prefix.mpr h) hall
    | some j =>
      have hp := List.find?_some hf
      have hj := List.isPrefixOf_iff_prefix.mp hp
      rw [table_prefix_unique name.data j i hj h]

/-- When no table name is a prefix of the requested name the lookup fails. -/
theorem vreg_lookup_eq_none (name : String)
    (h : ∀ i : Fin 3, ¬ (vreg_conf i).name.data <+: name.data) : vreg_lookup name = none := by
  cases hl : vreg_lookup name with
  | none => rfl
  | some i => exact absurd ((vreg_lookup_eq_some_iff name i).mp hl) (h i)

/-! ## Power resource set: enable and release -/

/-- The enable path once a handle `v` is at hand (from the slot, or from
`regulator_get` on an empty slot): the calls made, the slot written and the
value returned. -/
theorem vreg_setup_enable_of_handle (f : fpc1020_data) (hw : Hw) (env : VregEnv)
    (name : String) (i : Fin 3) (v : Nat) (hl : vreg_lookup name = some i)
    (hv : f.vreg i = some v ∨ (f.vreg i = none ∧ env.get_ret = some v)) :
    vreg_setup f hw env name true =
      (env.enable_rc,
       { f with vreg := Function.update f.vreg i (if env.enable_rc ≠ 0 then none else some v) },
       { hw with trace := hw.trace
          ++ (if f.vreg i = none then [HwCall.regulator_get name (some v)] else [])
          ++ [HwCall.regulator_count_voltages v]
          ++ (if env.count_voltages > 0 then
                [HwCall.regulator_set_voltage v (vreg_conf i).vmin (vreg_conf i).vmax]
              else [])
          ++ [HwCall.regulator_set_optimum_mode v (vreg_conf i).ua_load,
              HwCall.regulator_enable v]
          ++ (if env.enable_rc ≠ 0 then [HwCall.regulator_put v] else []) }) := by
  rcases hv with hs | ⟨hn, hg⟩
  · by_cases hc : env.count_voltages > 0 <;> by_cases he : env.enable_rc = 0 <;>
      simp [vreg_setup, hl, hs, hc, he, Hw.emit]
  · by_cases hc : env.count_voltages > 0 <;> by_cases he : env.enable_rc = 0 <;>
      simp [vreg_setup, hl, hn, hg, hc, he, Hw.emit]

/-- C8: for a table name, whatever the slot held before, when
`vreg_setup(name, enable = true)` has a handle `v` to work with (the slot's, or
the one `regulator_get` returned for an empty slot) and `regulator_enable`
fails, the call returns the enable call's non-zero code, the calls end with
`regulator_enable(v)` then `regulator_put(v)`, the slot of that name is empty
afterwards and the other slots are untouched. -/
theorem vreg_setup_enable_failure_releases (i : Fin 3) (f : fpc1020_data) (hw : Hw)
    (env : VregEnv) (v : Nat)
    (hv : f.vreg i = some v ∨ (f.vreg i = none ∧ env.get_ret = some v))
    (hfail : env.enable_rc ≠ 0) :
    (vreg_setup f hw env (vreg_conf i).name true).1 = env.enable_rc ∧
    (vreg_setup f hw env (vreg_conf i).name true).1 ≠ 0 ∧
    (vreg_setup f hw env (vreg_conf i).name true).2.1.vreg i = none ∧
    (∀ j, j ≠ i → (vreg_setup f hw env (vreg_conf i).name true).2.1.vreg j = f.vreg j) ∧
    (vreg_setup f hw env (vreg_conf i).name true).2.2.trace
      = hw.trace
          ++ (if f.vreg i = none then [HwCall.regulator_get (vreg_conf i).name (some v)]
              else [])
          ++ [HwCall.regulator_count_voltages v]
          ++ (if env.count_voltages > 0 then
                [HwCall.regulator_set_voltage v (vreg_conf i).vmin (vreg_conf i).vmax]
              else [])
          ++ [HwCall.regulator_set_optimum_mode v (vreg_conf i).ua_load,
              HwCall.regulator_enable v, HwCall.regulator_put v] := by
  rw [vreg_setup_enable_of_handle f hw env _ i v (vreg_lookup_table_name i) hv]
  refine ⟨rfl, hfail, ?_, ?_, ?_⟩
  · simp [hfail]
  · intro j hj
    simp [Function.update_noteq hj]
  · simp [hfail]

/-- Witness for C8: `"vdd_ana"` on an empty slot, `regulator_get` handing out
handle 77, a continuous-voltage regulator, and `regulator_enable` failing with
`-5`; the range applied is [1800000, 1800000] and the load 6000. -/
theorem vreg_setup_enable_failure_releases_witness :
    (vreg_setup (attach_state 17 18 4800000) Hw.attach ⟨some 77, 1, 0, 0, -5, 0⟩
        "vdd_ana" true).1 = -5 ∧
    (vreg_setup (attach_state 17 18 4800000) Hw.attach ⟨some 77, 1, 0, 0, -5, 0⟩
        "vdd_ana" true).2.1.vreg 0 = none ∧
    (vreg_setup (attach_state 17 18 4800000) Hw.attach ⟨some 77, 1, 0, 0, -5, 0⟩
        "vdd_ana" true).2.2.trace
      = [.regulator_get "vdd_ana" (some 77), .regulator_count_voltages 77,
         .regulator_set_voltage 77 1800000 1800000, .regulator_set_optimum_mode 77 6000,
         .regulator_enable 77, .regulator_put 77] :=
  have h := vreg_setup_enable_failure_releases 0 (attach_state 17 18 4800000) Hw.attach
    ⟨some 77, 1, 0, 0, -5, 0⟩ 77 (Or.inr ⟨rfl, rfl⟩) (by decide)
  ⟨h.1, h.2.2.1, h.2.2.2.2⟩

/-- C9: for a table name and any prior state, `vreg_setup(name, enable = false)`
returns 0 and leaves that name's slot empty and the other slots untouched.  On
an empty slot it changes nothing and calls nothing.  On a slot holding `v` it
asks `regulator_is_enabled(v)`, calls `regulator_disable(v)` exactly when the
answer is non-zero, and then `regulator_put(v)`.  A second such call right
after the first changes nothing and calls nothing. -/
theorem vreg_setup_disable_releases (i : Fin 3) (f : fpc1020_data) (hw : Hw)
    (env env2 : VregEnv) :
    (vreg_setup f hw env (vreg_conf i).name false).1 = 0 ∧
    (vreg_setup f hw env (vreg_conf i).name false).2.1.vreg i = none ∧
    (∀ j, j ≠ i → (vreg_setup f hw env (vreg_conf i).name false).2.1.vreg j = f.vreg j) ∧
    (f.vreg i = none → vreg_setup f hw env (vreg_conf i).name false = (0, f, hw)) ∧
    (∀ v, f.vreg i = some v →
      (vreg_setup f hw env (vreg_conf i).name false).2.2.trace
        = hw.trace ++ [HwCall.regulator_is_enabled v]
            ++ (if env.is_enabled ≠ 0 then [HwCall.regulator_disable v] else [])
            ++ [HwCall.regulator_put v]) ∧
    vreg_setup (vreg_setup f hw env (vreg_conf i).name false).2.1
        (vreg_setup f hw env (vreg_conf i).name false).2.2 env2 (vreg_conf i).name false
      = (0, (vreg_setup f hw env (vreg_conf i).name false).2.1,
            (vreg_setup f hw env (vreg_conf i).name false).2.2) := by
  have hl := vreg_lookup_table_name i
  have hempty : ∀ (g : fpc1020_data) (h : Hw) (e : VregEnv), g.vreg i = none →
      vreg_setup g h e (vreg_conf i).name false = (0, g, h) := by
    intro g h e hg
    simp [vreg_setup, hl, hg]
  have hslot : (vreg_setup f hw env (vreg_conf i).name false).2.1.vreg i = none := by
    cases hs : f.vreg i with
    | none => simp [vreg_setup, hl, hs]
    | some v => simp [vreg_setup, hl, hs]
  refine ⟨?_, hslot, ?_, hempty f hw env, ?_, hempty _ _ env2 hslot⟩
  · cases hs : f.vreg i <;> simp [vreg_setup, hl, hs]
  · intro j hj
    cases hs : f.vreg i with
    | none => simp [vreg_setup, hl, hs]
    | some v => simp [vreg_setup, hl, hs, Function.update_noteq hj]
  · intro v hs
    by_cases he : env.is_enabled = 0 <;> simp [vreg_setup, hl, hs, he, Hw.emit]

/-- C10: for every requested name the lookup of `vreg_setup` is the first entry
of the ordered table `[vdd_ana, vcc_spi, vdd_io]` whose name is a prefix of the
requested name; at most one entry has that property, so entry `i` is selected
exactly when its name is a prefix; an enable with a handle `v` at hand applies
the voltage range and the load of that entry; and when no table name is a
prefix, `vreg_setup` returns `-EINVAL` for enable and disable alike, with the
context unchanged and no hardware call. -/
theorem vreg_setup_prefix_lookup (name : String) (f : fpc1020_data) (hw : Hw)
    (env : VregEnv) :
    vreg_lookup name = first_prefix_entry name ∧
    (∀ i j : Fin 3, (vreg_conf i).name.data <+: name.data →
      (vreg_conf j).name.data <+: name.data → i = j) ∧
    (∀ i : Fin 3, vreg_lookup name = some i ↔ (vreg_conf i).name.data <+: name.data) ∧
    (∀ (i : Fin 3) (v : Nat), (vreg_conf i).name.data <+: name.data →
      (f.vreg i = some v ∨ (f.vreg i = none ∧ env.get_ret = some v)) →
      (vreg_setup f hw env name true).2.2.trace
        = hw.trace
            ++ (if f.vreg i = none then [HwCall.regulator_get name (some v)] else [])
            ++ [HwCall.regulator_count_voltages v]
            ++ (if env.count_voltages > 0 then
                  [HwCall.regulator_set_voltage v (vreg_conf i).vmin (vreg_conf i).vmax]
                else [])
            ++ [HwCall.regulator_set_optimum_mode v (vreg_conf i).ua_load,
                HwCall.regulator_enable v]
            ++ (if env.enable_rc ≠ 0 then [HwCall.regulator_put v] else [])) ∧
    ((∀ i : Fin 3, ¬ (vreg_conf i).name.data <+: name.data) →
      ∀ enable : Bool, vreg_setup f hw env name enable = (-EINVAL, f, hw)) := by
  refine ⟨vreg_lookup_eq_first_prefix_entry name, table_prefix_unique name.data,
    vreg_lookup_eq_some_iff name, ?_, ?_⟩
  · intro i v hp hv
    rw [vreg_setup_enable_of_handle f hw env name i v
      ((vreg_lookup_eq_some_iff name i).mpr hp) hv]
  · intro hnone enable
    simp [vreg_setup, vreg_lookup_eq_none name hnone]

/-! ## Detach -/

/-- The release path for a name that selects entry `i`. -/
theorem vreg_setup_disable_eq (f : fpc1020_data) (hw : Hw) (env : VregEnv) (name : String)
    (i : Fin 3) (hl : vreg_lookup name = some i) :
    vreg_setup f hw env name false =
      (0, { f with vreg := Function.update f.vreg i none },
          { hw with trace := hw.trace ++ release_calls (f.vreg i) env }) := by
  cases hs : f.vreg i with
  | none =>
    have hu : Function.update f.vreg i none = f.vreg := by
      rw [← hs]; exact Function.update_eq_self i f.vreg
    simp [vreg_setup, hl, hs, release_calls, hu]
  | some v =>
    by_cases he : env.is_enabled = 0 <;>
      simp [vreg_setup, hl, hs, he, release_calls, Hw.emit]

/-- C11: for every device state, `fpc1020_remove` returns 0, leaves the three
regulator slots empty, and after freeing the input device (if any) and removing
the sysfs group makes the release calls of `vdd_io`, then `vcc_spi`, then
`vdd_ana`, in that order; a slot that holds no handle contributes no call, so
with no regulator acquired no regulator call is made at all. -/
theorem fpc1020_remove_releases_all (f : fpc1020_data) (hw : Hw) (env : RemoveEnv) :
    (fpc1020_remove f hw env).1 = 0 ∧
    (∀ i : Fin 3, (fpc1020_remove f hw env).2.1.vreg i = none) ∧
    (fpc1020_remove f hw env).2.2.trace
      = hw.trace
          ++ (match f.input with
              | some d => [HwCall.input_free_device d]
              | none => [])
          ++ [HwCall.sysfs_remove_group]
          ++ release_calls (f.vreg 2) env.vdd_io
          ++ release_calls (f.vreg 1) env.vcc_spi
          ++ release_calls (f.vreg 0) env.vdd_ana ∧
    ((∀ i : Fin 3, f.vreg i = none) →
      (fpc1020_remove f hw env).2.2.trace
        = hw.trace
            ++ (match f.input with
                | some d => [HwCall.input_free_device d]
                | none => [])
            ++ [HwCall.sysfs_remove_group]) := by
  have h2 : vreg_lookup "vdd_io" = some 2 := by decide
  have h1 : vreg_lookup "vcc_spi" = some 1 := by decide
  have h0 : vreg_lookup "vdd_ana" = some 0 := by decide
  have htrace : (fpc1020_remove f hw env).2.2.trace
      = hw.trace
          ++ (match f.input with
              | some d => [HwCall.input_free_device d]
              | none => [])
          ++ [HwCall.sysfs_remove_group]
          ++ release_calls (f.vreg 2) env.vdd_io
          ++ release_calls (f.vreg 1) env.vcc_spi
          ++ release_calls (f.vreg 0) env.vdd_ana := by
    simp only [fpc1020_remove, vreg_setup_disable_eq _ _ _ _ _ h2,
      vreg_setup_disable_eq _ _ _ _ _ h1, vreg_setup_disable_eq _ _ _ _ _ h0]
    cases f.input <;> simp [Hw.emit, Function.update]
  refine ⟨rfl, ?_, htrace, ?_⟩
  · intro i
    simp only [fpc1020_remove, vreg_setup_disable_eq _ _ _ _ _ h2,
      vreg_setup_disable_eq _ _ _ _ _ h1, vreg_setup_disable_eq _ _ _ _ _ h0]
    fin_cases i <;> simp [Function.update]
  · intro hall
    rw [htrace]
    simp [hall, release_calls]

/-- C12 (the code at the failing input): from the attach state an early-blank
powerdown notification leaves the reconciliation task pending; `fpc1020_remove`
then returns 0 having issued only the sysfs group removal, with no
`cancel_work_sync`, and the task is still pending; when the worker runs it
afterwards the task body executes and publishes on `screen_state`. -/
theorem fpc1020_remove_leaves_work_pending :
    (fb_notifier_callback (attach_state 17 18 4800000) Hw.attach FB_EARLY_EVENT_BLANK
        FB_BLANK_POWERDOWN).2.1.pm_work_pending = true ∧
    (fpc1020_remove
        (fb_notifier_callback (attach_state 17 18 4800000) Hw.attach FB_EARLY_EVENT_BLANK
          FB_BLANK_POWERDOWN).2.1
        (fb_notifier_callback (attach_state 17 18 4800000) Hw.attach FB_EARLY_EVENT_BLANK
          FB_BLANK_POWERDOWN).2.2
        ⟨⟨none, 0, 0, 0, 0, 0⟩, ⟨none, 0, 0, 0, 0, 0⟩, ⟨none, 0, 0, 0, 0, 0⟩⟩).2.1.pm_work_pending
      = true ∧
    (fpc1020_remove
        (fb_notifier_callback (attach_state 17 18 4800000) Hw.attach FB_EARLY_EVENT_BLANK
          FB_BLANK_POWERDOWN).2.1
        (fb_notifier_callback (attach_state 17 18 4800000) Hw.attach FB_EARLY_EVENT_BLANK
          FB_BLANK_POWERDOWN).2.2
        ⟨⟨none, 0, 0, 0, 0, 0⟩, ⟨none, 0, 0, 0, 0, 0⟩, ⟨none, 0, 0, 0, 0, 0⟩⟩).2.2.trace
      = [.cancel_work_sync, .queue_work, .sysfs_remove_group] ∧
    (run_pm_work
        (fpc1020_remove
          (fb_notifier_callback (attach_state 17 18 4800000) Hw.attach FB_EARLY_EVENT_BLANK
            FB_BLANK_POWERDOWN).2.1
          (fb_notifier_callback (attach_state 17 18 4800000) Hw.attach FB_EARLY_EVENT_BLANK
            FB_BLANK_POWERDOWN).2.2
          ⟨⟨none, 0, 0, 0, 0, 0⟩, ⟨none, 0, 0, 0, 0, 0⟩, ⟨none, 0, 0, 0, 0, 0⟩⟩).2.1
        (fpc1020_remove
          (fb_notifier_callback (attach_state 17 18 4800000) Hw.attach FB_EARLY_EVENT_BLANK
            FB_BLANK_POWERDOWN).2.1
          (fb_notifier_callback (attach_state 17 18 4800000) Hw.attach FB_EARLY_EVENT_BLANK
            FB_BLANK_POWERDOWN).2.2
          ⟨⟨none, 0, 0, 0, 0, 0⟩, ⟨none, 0, 0, 0, 0, 0⟩, ⟨none, 0, 0, 0, 0, 0⟩⟩).2.2
        []).2.1.trace
      = [.cancel_work_sync, .queue_work, .sysfs_remove_group,
         .sysfs_notify "screen_state"] := by
  decide

/-! ## Display-state reconciler -/

/-- The statements of an early-blank unblank notification. -/
theorem fb_notifier_ops_unblank :
    fb_notifier_ops FB_EARLY_EVENT_BLANK FB_BLANK_UNBLANK
      = [.cancel_work_sync, .set_screen_off false, .queue_work] := by
  decide

/-- The statements of an early-blank powerdown notification. -/
theorem fb_notifier_ops_powerdown :
    fb_notifier_ops FB_EARLY_EVENT_BLANK FB_BLANK_POWERDOWN
      = [.cancel_work_sync, .set_screen_off true, .queue_work] := by
  decide

/-- Every notification is ignored or is a cancel, a write of `screen_off` and
a queue, in that order. -/
theorem fb_notifier_ops_cases (action : Nat) (blank : Int) :
    fb_notifier_ops action blank = [] ∨
    ∃ v, fb_notifier_ops action blank
          = [.cancel_work_sync, .set_screen_off v, .queue_work] := by
  unfold fb_notifier_ops
  split_ifs
  · exact Or.inl rfl
  · exact Or.inr ⟨false, rfl⟩
  · exact Or.inr ⟨true, rfl⟩
  · exact Or.inl rfl

/-- The three statements run without the worker in between. -/
theorem notif_ops_run (f : fpc1020_data) (hw : Hw) (v : Bool) :
    ([NotifOp.cancel_work_sync, .set_screen_off v, .queue_work]).foldl notif_op_step (f, hw)
      = ({ f with pm_work_pending := true, screen_off := v },
         { hw with trace := hw.trace ++ [.cancel_work_sync, .queue_work] }) := by
  simp [notif_op_step, cancel_work_sync, queue_work, Hw.emit]

/-- C13: `fb_notifier_callback` always returns 0.  When the action is not the
early-blank event, or the blank code is neither unblank nor powerdown, it
executes no statement: the context and the hardware are unchanged (nothing
cancelled, nothing queued).  For early-blank with unblank its statements are,
in this order, `cancel_work_sync`, the write `screen_off = false`, and one
`queue_work`, leaving the task pending; for early-blank with powerdown the
same with `screen_off = true`.  `cancel_work_sync` takes a pending task off the
queue (the pending bit is clear after it) and `queue_work` sets the bit; with
the worker alongside, `cancel_work_sync` does not proceed while an instance of
the task is running and clears the bit once the worker is idle. -/
theorem fb_notifier_callback_transition (f : fpc1020_data) (hw : Hw) (action : Nat)
    (blank : Int) :
    (fb_notifier_callback f hw action blank).1 = 0 ∧
    ((action ≠ FB_EARLY_EVENT_BLANK ∨
        (blank ≠ FB_BLANK_UNBLANK ∧ blank ≠ FB_BLANK_POWERDOWN)) →
      fb_notifier_ops action blank = [] ∧
      (fb_notifier_callback f hw action blank).2 = (f, hw)) ∧
    ((action = FB_EARLY_EVENT_BLANK ∧ blank = FB_BLANK_UNBLANK) →
      fb_notifier_ops action blank
        = [.cancel_work_sync, .set_screen_off false, .queue_work] ∧
      (fb_notifier_callback f hw action blank).2 =
        ({ f with pm_work_pending := true, screen_off := false },
         { hw with trace := hw.trace ++ [.cancel_work_sync, .queue_work] })) ∧
    ((action = FB_EARLY_EVENT_BLANK ∧ blank = FB_BLANK_POWERDOWN) →
      fb_notifier_ops action blank
        = [.cancel_work_sync, .set_screen_off true, .queue_work] ∧
      (fb_notifier_callback f hw action blank).2 =
        ({ f with pm_work_pending := true, screen_off := true },
         { hw with trace := hw.trace ++ [.cancel_work_sync, .queue_work] })) ∧
    cancel_work_sync f hw
      = ({ f with pm_work_pending := false },
         { hw with trace := hw.trace ++ [.cancel_work_sync] }) ∧
    queue_work f hw
      = ({ f with pm_work_pending := true }, { hw with trace := hw.trace ++ [.queue_work] }) ∧
    (∀ (st : Sys) (rest : List NotifOp), st.ops = .cancel_work_sync :: rest →
      (st.worker ≠ .idle → sys_step st false = st) ∧
      (st.worker = .idle →
        sys_step st false
          = { st with f := { st.f with pm_work_pending := false },
                      hw := { st.hw with trace := st.hw.trace ++ [.cancel_work_sync] },
                      ops := rest })) := by
  refine ⟨rfl, ?_, ?_, ?_, rfl, rfl, ?_⟩
  · rintro (h | ⟨h1, h2⟩)
    · simp [fb_notifier_callback, fb_notifier_ops, h]
    · simp [fb_notifier_callback, fb_notifier_ops, h1, h2]
  · rintro ⟨h1, h2⟩
    subst h1 h2
    refine ⟨fb_notifier_ops_unblank, ?_⟩
    simp only [fb_notifier_callback, fb_notifier_ops_unblank, notif_ops_run]
  · rintro ⟨h1, h2⟩
    subst h1 h2
    refine ⟨fb_notifier_ops_powerdown, ?_⟩
    simp only [fb_notifier_callback, fb_notifier_ops_powerdown, notif_ops_run]
  · intro st rest hops
    constructor
    · intro hw
      simp [sys_step, hops, hw]
    · intro hw
      simp [sys_step, hops, hw, notif_op_step, cancel_work_sync, Hw.emit]

/-- One step of `memcmp`. -/
theorem memcmp_succ (a b : List Char) (n : Nat) :
    memcmp a b (n + 1) =
      if a.headD NUL ≠ b.headD NUL then
        ((a.headD NUL).toNat : Int) - ((b.headD NUL).toNat : Int)
      else memcmp a.tail b.tail n := by
  simp only [memcmp]

/-- Different characters have a non-zero difference of codes. -/
theorem char_diff_ne_zero (c d : Char) (h : c ≠ d) : (c.toNat : Int) - (d.toNat : Int) ≠ 0 := by
  intro e
  have : c.toNat = d.toNat := by omega
  exact h (char_eq_of_toNat_eq _ _ this)

/-- Comparing `n.length + 1` bytes against a NUL-free literal `n` (and its
terminator) gives 0 exactly when the bytes before the first NUL are `n`. -/
theorem memcmp_eq_zero_iff (n a : List Char) (h : NUL ∉ n) :
    memcmp a n (n.length + 1) = 0 ↔ (a.takeWhile fun c => c != NUL) = n := by
  induction n generalizing a with
  | nil =>
    cases a with
    | nil => simp [memcmp]
    | cons c cs =>
      by_cases hc : c = NUL
      · simp [memcmp, hc]
      · simp [memcmp, hc, char_diff_ne_zero c NUL hc, List.takeWhile_cons]
  | cons d ds ih =>
    have hd : d ≠ NUL := fun e => h (by simp [e])
    have hds : NUL ∉ ds := fun e => h (by simp [e])
    rw [List.length_cons, memcmp_succ]
    cases a with
    | nil =>
      simp [Ne.symm hd, char_diff_ne_zero NUL d (Ne.symm hd)]
    | cons c cs =>
      by_cases hcd : c = d
      · subst hcd
        simp [hd, List.takeWhile_cons, ih cs hds]
      · by_cases hc : c = NUL
        · subst hc
          simp [hcd, char_diff_ne_zero NUL d hcd, List.takeWhile_cons]
        · simp [hcd, char_diff_ne_zero c d hcd, List.takeWhile_cons, hc]

/-- The test the process loop makes is "named exactly `fps_work`". -/
theorem fps_work_test_iff (p : Proc) :
    memcmp p.comm "fps_work".data 9 = 0 ↔ p.name = "fps_work".data := by
  have hnul : NUL ∉ "fps_work".data := by decide
  exact memcmp_eq_zero_iff "fps_work".data p.comm hnul

/-- The process loop does what the spec's words say. -/
theorem set_fingerprint_hal_nice_loop_eq (nice : Int) (procs : List Proc) :
    set_fingerprint_hal_nice_loop nice procs
      = (renice_calls "fps_work".data nice procs,
         renice_first_named "fps_work".data nice procs) := by
  induction procs with
  | nil => rfl
  | cons p ps ih =>
    by_cases hp : p.name = "fps_work".data
    · have hm := (fps_work_test_iff p).mpr hp
      simp [set_fingerprint_hal_nice_loop, hm, renice_calls, renice_first_named, hp]
    · have hm : ¬ memcmp p.comm "fps_work".data 9 = 0 :=
        fun e => hp ((fps_work_test_iff p).mp e)
      simp only [set_fingerprint_hal_nice_loop, hm, if_false, ih, renice_first_named, hp]
      simp [renice_calls, List.find?_cons, hp]

/-- With no process named `name`, nothing is reniced and no call is made. -/
theorem renice_none (name : List Char) (nice : Int) (procs : List Proc)
    (h : ∀ p ∈ procs, p.name ≠ name) :
    renice_first_named name nice procs = procs ∧ renice_calls name nice procs = [] := by
  induction procs with
  | nil => exact ⟨rfl, rfl⟩
  | cons p ps ih =>
    have hp : p.name ≠ name := h p (by simp)
    have hps := ih fun q hq => h q (by simp [hq])
    have hc : renice_calls name nice ps = [] := hps.2
    constructor
    · simp [renice_first_named, hp, hps.1]
    · simpa [renice_calls, List.find?_cons, hp] using hc

/-- The task body with the display off. -/
theorem fpc1020_suspend_resume_off (f : fpc1020_data) (hw : Hw) (procs : List Proc)
    (h : f.screen_off = true) :
    fpc1020_suspend_resume f hw procs =
      (f,
       { hw with trace := hw.trace ++ renice_calls "fps_work".data MIN_NICE procs
                   ++ [HwCall.sysfs_notify "screen_state"] },
       renice_first_named "fps_work".data MIN_NICE procs) := by
  simp [fpc1020_suspend_resume, h, set_fingerprint_hal_nice,
    set_fingerprint_hal_nice_loop_eq, Hw.emit]

/-- The task body with the display on. -/
theorem fpc1020_suspend_resume_on (f : fpc1020_data) (hw : Hw) (procs : List Proc)
    (h : f.screen_off = false) :
    fpc1020_suspend_resume f hw procs =
      ({ f with irq_disabled := false },
       { hw with trace := hw.trace
                   ++ (if f.irq_disabled then [HwCall.enable_irq (.gpio_to_irq f.irq_gpio)]
                       else [])
                   ++ renice_calls "fps_work".data 0 procs
                   ++ [HwCall.sysfs_notify "screen_state"] },
       renice_first_named "fps_work".data 0 procs) := by
  cases hd : f.irq_disabled <;>
    simp [fpc1020_suspend_resume, h, hd, set_fpc_irq, set_fingerprint_hal_nice,
      set_fingerprint_hal_nice_loop_eq, Hw.emit]

/-- The worker taking its four steps in a row, from idle with the work
pending, does what `run_pm_work` does. -/
theorem worker_steps_eq_run_pm_work (f : fpc1020_data) (hw : Hw) (procs : List Proc)
    (ops : List NotifOp) (hp : f.pm_work_pending = true) :
    sys_run [true, true, true, true] ⟨f, hw, procs, .idle, ops⟩
      = ⟨(run_pm_work f hw procs).1, (run_pm_work f hw procs).2.1,
         (run_pm_work f hw procs).2.2, .idle, ops⟩ := by
  cases hs : f.screen_off <;>
    simp [sys_run, sys_step, worker_step, run_pm_work, fpc1020_suspend_resume, hp, hs,
      set_fpc_irq, set_fingerprint_hal_nice, Hw.emit]

/-- Calls appended to a trace are counted on from the count of the trace. -/
theorem runs_since_queue_append (t l : List HwCall) :
    runs_since_queue (t ++ l)
      = l.foldl
          (fun n c =>
            if c = .queue_work then 0
            else if c = .sysfs_notify "screen_state" then n + 1
            else n)
          (runs_since_queue t) := by
  simp [runs_since_queue, List.foldl_append]

/-- The priority calls of the process loop are neither a queueing nor a
notification. -/
theorem runs_since_queue_nice (t : List HwCall) (nice : Int) (procs : List Proc) :
    runs_since_queue (t ++ (set_fingerprint_hal_nice_loop nice procs).1)
      = runs_since_queue t := by
  rw [runs_since_queue_append, set_fingerprint_hal_nice_loop_eq]
  unfold renice_calls
  cases procs.find? fun p => p.name = "fps_work".data <;> simp

/-- The display-on part of the work body adds no queueing and no
notification. -/
theorem runs_since_queue_display_on (f : fpc1020_data) (hw : Hw) (procs : List Proc) :
    runs_since_queue (set_fingerprint_hal_nice (set_fpc_irq f hw true).2 procs 0).1.trace
      = runs_since_queue hw.trace := by
  cases hd : f.irq_disabled
  · simp only [set_fingerprint_hal_nice, set_fpc_irq, hd, Bool.not_false, if_true]
    exact runs_since_queue_nice _ _ _
  · simp only [set_fingerprint_hal_nice, set_fpc_irq, hd, Bool.not_true, Hw.emit,
      Bool.true_eq_false, if_false, if_true]
    rw [runs_since_queue_nice, runs_since_queue_append]
    simp

/-- One step of the system, by either thread, keeps `unblank_inv`. -/
theorem unblank_inv_step (st : Sys) (worker_turn : Bool) (h : unblank_inv st) :
    unblank_inv (sys_step st worker_turn) := by
  obtain ⟨f, hw, procs, w, ops⟩ := st
  rcases h with ⟨pre, hops⟩ | ⟨hops, hq⟩ | ⟨hops, hq, hso⟩ | ⟨hops, hF⟩
  · -- the unblank notification has not started
    simp only at hops
    cases worker_turn
    · cases pre with
      | nil =>
        by_cases hw0 : w = .idle
        · right; left
          simp [sys_step, hops, hw0, notif_op_step, cancel_work_sync, quiescent]
        · left
          exact ⟨[], by simp [sys_step, hops, hw0]⟩
      | cons op pre =>
        by_cases hblock : op = NotifOp.cancel_work_sync ∧ w ≠ Worker.idle
        · left
          exact ⟨op :: pre, by simp [sys_step, hops, hblock]⟩
        · left
          exact ⟨pre, by simp [sys_step, hops, hblock]⟩
    · left
      exact ⟨pre, by simp [sys_step, hops]⟩
  · -- cancelled, `screen_off` not yet written
    simp only [quiescent] at hq hops
    obtain ⟨hp, hw0⟩ := hq
    cases worker_turn
    · right; right; left
      simp [sys_step, hops, notif_op_step, quiescent, hp, hw0]
    · right; left
      simp [sys_step, worker_step, hops, quiescent, hp, hw0]
  · -- `screen_off` written, not yet queued
    simp only [quiescent] at hq hops hso
    obtain ⟨hp, hw0⟩ := hq
    cases worker_turn
    · right; right; right
      simp [sys_step, hops, notif_op_step, queue_work, Hw.emit, display_on_settled,
        runs_outstanding, hw0, hso, runs_since_queue_append]
    · right; right; left
      simp [sys_step, worker_step, hops, quiescent, hp, hw0, hso]
  · -- the unblank notification has returned
    simp only [display_on_settled, runs_outstanding] at hF hops
    obtain ⟨hso, hb, ha, hcount⟩ := hF
    right; right; right
    cases worker_turn
    · simp [sys_step, hops, display_on_settled, runs_outstanding, hso, hb, ha, hcount]
    · cases w with
      | idle =>
        by_cases hp : f.pm_work_pending = true
        · simp [hp] at hcount
          simp [sys_step, worker_step, hops, display_on_settled, runs_outstanding, hp, hso,
            hcount]
        · simp [hp] at hcount
          simp [sys_step, worker_step, hops, display_on_settled, runs_outstanding, hp, hso,
            hcount]
      | picked =>
        simp at hcount
        simp [sys_step, worker_step, hops, display_on_settled, runs_outstanding, hso, hcount]
      | branched v =>
        cases v
        · simp at hcount
          simp only [sys_step, worker_step, if_true, hops, display_on_settled,
            runs_outstanding, runs_since_queue_display_on]
          cases hd : f.irq_disabled <;> simp [set_fpc_irq, hd, hso, hcount]
        · exact absurd rfl hb
      | acted v =>
        cases v
        · simp at hcount
          simp only [sys_step, worker_step, if_true, hops, display_on_settled,
            runs_outstanding, Hw.emit, runs_since_queue_append]
          simp [hso]
          omega
        · exact absurd rfl ha

/-- A whole schedule keeps `unblank_inv`. -/
theorem unblank_inv_run (sched : List Bool) (st : Sys) (h : unblank_inv st) :
    unblank_inv (sys_run sched st) := by
  induction sched generalizing st with
  | nil => exact h
  | cons b bs ih =>
    have := ih (sys_step st b) (unblank_inv_step st b h)
    simpa [sys_run] using this

/-- C14: the notifier thread delivers an early-blank powerdown notification
and then an early-blank unblank notification, with the worker alongside.
When the worker takes no step in between (the queued task has not run), the
calls made are cancel, queue, cancel, queue and the task is pending once with
`screen_off = false`; the worker then runs the display-on branch
(`set_fpc_irq(true)`, niceness 0, one notification) and is idle again with
nothing pending.  Under every schedule of worker and notifier steps, from
every starting state of the context and of the worker, once both
notifications have returned `screen_off` is false, no instance of the task
that read `screen_off = true` is in flight (one that was running has been
waited for by `cancel_work_sync`), and exactly one run of the task has
completed since the last `queue_work` or is still to complete. -/
theorem powerdown_then_unblank_reconciles_display_on (f : fpc1020_data) (hw : Hw)
    (procs : List Proc) :
    sys_run [false, false, false, false, false, false]
        ⟨f, hw, procs, .idle,
          fb_notifier_ops FB_EARLY_EVENT_BLANK FB_BLANK_POWERDOWN
            ++ fb_notifier_ops FB_EARLY_EVENT_BLANK FB_BLANK_UNBLANK⟩
      = ⟨{ f with pm_work_pending := true, screen_off := false },
         { hw with trace := hw.trace ++ [.cancel_work_sync, .queue_work, .cancel_work_sync,
             .queue_work] },
         procs, .idle, []⟩ ∧
    sys_run [false, false, false, false, false, false, true, true, true, true]
        ⟨f, hw, procs, .idle,
          fb_notifier_ops FB_EARLY_EVENT_BLANK FB_BLANK_POWERDOWN
            ++ fb_notifier_ops FB_EARLY_EVENT_BLANK FB_BLANK_UNBLANK⟩
      = ⟨{ f with pm_work_pending := false, screen_off := false, irq_disabled := false },
         { hw with trace := hw.trace
              ++ [.cancel_work_sync, .queue_work, .cancel_work_sync, .queue_work]
              ++ (if f.irq_disabled then [HwCall.enable_irq (.gpio_to_irq f.irq_gpio)]
                  else [])
              ++ renice_calls "fps_work".data 0 procs
              ++ [HwCall.sysfs_notify "screen_state"] },
         renice_first_named "fps_work".data 0 procs, .idle, []⟩ ∧
    (∀ (w : Worker) (sched : List Bool),
      (sys_run sched
          ⟨f, hw, procs, w,
            fb_notifier_ops FB_EARLY_EVENT_BLANK FB_BLANK_POWERDOWN
              ++ fb_notifier_ops FB_EARLY_EVENT_BLANK FB_BLANK_UNBLANK⟩).ops = [] →
      display_on_settled
        (sys_run sched
          ⟨f, hw, procs, w,
            fb_notifier_ops FB_EARLY_EVENT_BLANK FB_BLANK_POWERDOWN
              ++ fb_notifier_ops FB_EARLY_EVENT_BLANK FB_BLANK_UNBLANK⟩)) := by
  have hnotif : sys_run [false, false, false, false, false, false]
      ⟨f, hw, procs, .idle,
        fb_notifier_ops FB_EARLY_EVENT_BLANK FB_BLANK_POWERDOWN
          ++ fb_notifier_ops FB_EARLY_EVENT_BLANK FB_BLANK_UNBLANK⟩
      = ⟨{ f with pm_work_pending := true, screen_off := false },
         { hw with trace := hw.trace ++ [.cancel_work_sync, .queue_work, .cancel_work_sync,
             .queue_work] },
         procs, .idle, []⟩ := by
    rw [fb_notifier_ops_powerdown, fb_notifier_ops_unblank]
    simp [sys_run, sys_step, notif_op_step, cancel_work_sync, queue_work, Hw.emit]
  refine ⟨hnotif, ?_, ?_⟩
  · have hsplit : [false, false, false, false, false, false, true, true, true, true]
        = [false, false, false, false, false, false] ++ [true, true, true, true] := rfl
    rw [hsplit, sys_run, List.foldl_append]
    rw [sys_run] at hnotif
    rw [hnotif]
    have hw4 := worker_steps_eq_run_pm_work
      { f with pm_work_pending := true, screen_off := false }
      { hw with trace := hw.trace ++ [.cancel_work_sync, .queue_work, .cancel_work_sync,
          .queue_work] } procs [] rfl
    rw [sys_run] at hw4
    rw [hw4]
    simp only [run_pm_work, if_true]
    rw [fpc1020_suspend_resume_on _ _ _ rfl]
  · intro w sched hdone
    have hinit : unblank_inv
        ⟨f, hw, procs, w,
          fb_notifier_ops FB_EARLY_EVENT_BLANK FB_BLANK_POWERDOWN
            ++ fb_notifier_ops FB_EARLY_EVENT_BLANK FB_BLANK_UNBLANK⟩ :=
      Or.inl ⟨fb_notifier_ops FB_EARLY_EVENT_BLANK FB_BLANK_POWERDOWN, by
        rw [fb_notifier_ops_unblank]⟩
    rcases unblank_inv_run sched _ hinit with ⟨pre, hops⟩ | ⟨hops, _⟩ | ⟨hops, _⟩ | ⟨_, hF⟩
    · rw [hdone] at hops
      simp at hops
    · rw [hdone] at hops
      simp at hops
    · rw [hdone] at hops
      simp at hops
    · exact hF

/-- C19: one run of `fpc1020_suspend_resume`, for every device state and
process list.  With `screen_off` set it leaves the context (so the IRQ flag)
as it was, makes no interrupt call, gives the first process named exactly
`fps_work` the niceness `MIN_NICE`, and then notifies `screen_state` once.
With `screen_off` clear it applies `set_fpc_irq(true)` (the flag ends enabled,
`enable_irq` is called when it was disabled), gives that process the niceness
0, and then notifies `screen_state` once.  With no process named `fps_work` the
process list is unchanged, no `set_user_nice` call is made, and the run still
ends with the one notification. -/
theorem fpc1020_suspend_resume_reconciles (f : fpc1020_data) (hw : Hw)
    (procs : List Proc) :
    (f.screen_off = true →
      fpc1020_suspend_resume f hw procs =
        (f,
         { hw with trace := hw.trace ++ renice_calls "fps_work".data MIN_NICE procs
                     ++ [HwCall.sysfs_notify "screen_state"] },
         renice_first_named "fps_work".data MIN_NICE procs)) ∧
    (f.screen_off = false →
      fpc1020_suspend_resume f hw procs =
        ({ f with irq_disabled := false },
         { hw with trace := hw.trace
                     ++ (if f.irq_disabled then
                           [HwCall.enable_irq (.gpio_to_irq f.irq_gpio)]
                         else [])
                     ++ renice_calls "fps_work".data 0 procs
                     ++ [HwCall.sysfs_notify "screen_state"] },
         renice_first_named "fps_work".data 0 procs) ∧
      (fpc1020_suspend_resume f hw procs).1 = (set_fpc_irq f hw true).1) ∧
    ((∀ p ∈ procs, p.name ≠ "fps_work".data) →
      (fpc1020_suspend_resume f hw procs).2.2 = procs ∧
      (fpc1020_suspend_resume f hw procs).2.1.trace
        = hw.trace
            ++ (if f.screen_off = false ∧ f.irq_disabled = true then
                  [HwCall.enable_irq (.gpio_to_irq f.irq_gpio)]
                else [])
            ++ [HwCall.sysfs_notify "screen_state"]) := by
  refine ⟨fpc1020_suspend_resume_off f hw procs, ?_, ?_⟩
  · intro h
    refine ⟨fpc1020_suspend_resume_on f hw procs h, ?_⟩
    rw [fpc1020_suspend_resume_on f hw procs h]
    cases hd : f.irq_disabled <;> simp [set_fpc_irq, hd]
  · intro hnone
    cases hs : f.screen_off
    · have hr := renice_none "fps_work".data 0 procs hnone
      rw [fpc1020_suspend_resume_on f hw procs hs]
      cases hd : f.irq_disabled <;> simp [hr.1, hr.2]
    · have hr := renice_none "fps_work".data MIN_NICE procs hnone
      rw [fpc1020_suspend_resume_off f hw procs hs]
      simp [hr.1, hr.2]

/-! ## Suspend and resume -/

/-- C15 as stated fails in two places.  After a failed enable from the attach
state the counter is 1 while both clocks are off; `fpc1020_suspend` followed
by `fpc1020_resume`, all clock calls succeeding, then leaves both clocks
running, which is not the physical state that held before suspend.  And with
the counter at `INT_MIN` (where `2^31` enables leave it) and the clocks
running, `clocks_enabled > 0` is false, yet `fpc1020_suspend` disables the
clocks and `fpc1020_resume` enables them again. -/
theorem suspend_resume_starts_stopped_clocks :
    ((set_clks (attach_state 17 18 4800000) Hw.attach ⟨-22, 0, 0⟩ true).2.1.clocks_enabled = 1 ∧
      (set_clks (attach_state 17 18 4800000) Hw.attach ⟨-22, 0, 0⟩ true).2.2.core_clk_on
        = false ∧
      (set_clks (attach_state 17 18 4800000) Hw.attach ⟨-22, 0, 0⟩ true).2.2.iface_clk_on
        = false ∧
      (fpc1020_resume
          (fpc1020_suspend
            (set_clks (attach_state 17 18 4800000) Hw.attach ⟨-22, 0, 0⟩ true).2.1
            (set_clks (attach_state 17 18 4800000) Hw.attach ⟨-22, 0, 0⟩ true).2.2
            ClkEnv.ok).2.1
          (fpc1020_suspend
            (set_clks (attach_state 17 18 4800000) Hw.attach ⟨-22, 0, 0⟩ true).2.1
            (set_clks (attach_state 17 18 4800000) Hw.attach ⟨-22, 0, 0⟩ true).2.2
            ClkEnv.ok).2.2
          ClkEnv.ok).2.2.core_clk_on = true ∧
      (fpc1020_resume
          (fpc1020_suspend
            (set_clks (attach_state 17 18 4800000) Hw.attach ⟨-22, 0, 0⟩ true).2.1
            (set_clks (attach_state 17 18 4800000) Hw.attach ⟨-22, 0, 0⟩ true).2.2
            ClkEnv.ok).2.1
          (fpc1020_suspend
            (set_clks (attach_state 17 18 4800000) Hw.attach ⟨-22, 0, 0⟩ true).2.1
            (set_clks (attach_state 17 18 4800000) Hw.attach ⟨-22, 0, 0⟩ true).2.2
            ClkEnv.ok).2.2
          ClkEnv.ok).2.2.iface_clk_on = true) ∧
    (¬ (0 : Int) < ({ attach_state 17 18 4800000 with
          clocks_enabled := -2147483648 } : fpc1020_data).clocks_enabled ∧
      (fpc1020_suspend { attach_state 17 18 4800000 with clocks_enabled := -2147483648 }
          ⟨true, true, []⟩ ClkEnv.ok).2.2.trace
        = [.clk_disable_unprepare .iface_clk, .clk_disable_unprepare .core_clk,
           .enable_irq_wake (.gpio_to_irq 17)] ∧
      (fpc1020_resume
          (fpc1020_suspend { attach_state 17 18 4800000 with clocks_enabled := -2147483648 }
            ⟨true, true, []⟩ ClkEnv.ok).2.1
          (fpc1020_suspend { attach_state 17 18 4800000 with clocks_enabled := -2147483648 }
            ⟨true, true, []⟩ ClkEnv.ok).2.2
          ClkEnv.ok).2.2.trace
        = [.clk_disable_unprepare .iface_clk, .clk_disable_unprepare .core_clk,
           .enable_irq_wake (.gpio_to_irq 17),
           .clk_set_rate .core_clk 4800000, .clk_prepare_enable .core_clk,
           .clk_prepare_enable .iface_clk, .disable_irq_wake (.gpio_to_irq 17)]) := by
  decide

/-- C15 amended: for every device state, `fpc1020_suspend` returns 0, changes
only `clocks_suspended`, which becomes `clocks_enabled`, disables the
interface and then the core clock exactly when `clocks_enabled` is not 0
(both clocks are then off), and always ends with `enable_irq_wake` on the
interrupt line.  A following `fpc1020_resume` returns 0, changes nothing in the
context (so neither call changes `clocks_enabled`), enters the clock enable
sequence, starting with `clk_set_rate`, exactly when `clocks_enabled` was not 0
at suspend, and ends with `disable_irq_wake`.  When before suspend each clock
was running exactly when `clocks_enabled` was not 0 and the clock calls of the
resume succeed, both clocks are back in the state they had before suspend. -/
theorem suspend_resume_restores_clocks (f : fpc1020_data) (hw : Hw) (env env2 : ClkEnv) :
    (fpc1020_suspend f hw env).1 = 0 ∧
    (fpc1020_suspend f hw env).2.1 = { f with clocks_suspended := f.clocks_enabled } ∧
    (fpc1020_suspend f hw env).2.2.trace
      = hw.trace
          ++ (if f.clocks_enabled ≠ 0 then
                [HwCall.clk_disable_unprepare .iface_clk, HwCall.clk_disable_unprepare .core_clk]
              else [])
          ++ [HwCall.enable_irq_wake (.gpio_to_irq f.irq_gpio)] ∧
    (f.clocks_enabled ≠ 0 →
      (fpc1020_suspend f hw env).2.2.core_clk_on = false ∧
      (fpc1020_suspend f hw env).2.2.iface_clk_on = false) ∧
    (fpc1020_resume (fpc1020_suspend f hw env).2.1 (fpc1020_suspend f hw env).2.2 env2).1 = 0 ∧
    (fpc1020_resume (fpc1020_suspend f hw env).2.1 (fpc1020_suspend f hw env).2.2 env2).2.1
      = (fpc1020_suspend f hw env).2.1 ∧
    (f.clocks_enabled = 0 →
      (fpc1020_resume (fpc1020_suspend f hw env).2.1 (fpc1020_suspend f hw env).2.2
          env2).2.2.trace
        = (fpc1020_suspend f hw env).2.2.trace
            ++ [HwCall.disable_irq_wake (.gpio_to_irq f.irq_gpio)]) ∧
    (f.clocks_enabled ≠ 0 →
      (fpc1020_suspend f hw env).2.2.trace ++ [HwCall.clk_set_rate .core_clk f.max_speed_hz]
        <+: (fpc1020_resume (fpc1020_suspend f hw env).2.1 (fpc1020_suspend f hw env).2.2
              env2).2.2.trace ∧
      HwCall.disable_irq_wake (.gpio_to_irq f.irq_gpio)
        ∈ (fpc1020_resume (fpc1020_suspend f hw env).2.1 (fpc1020_suspend f hw env).2.2
              env2).2.2.trace.getLast?) ∧
    (fpc1020_resume (fpc1020_suspend f hw env).2.1 (fpc1020_suspend f hw env).2.2
        ClkEnv.ok).2.2.trace
      = (fpc1020_suspend f hw env).2.2.trace
          ++ (if f.clocks_enabled ≠ 0 then
                [HwCall.clk_set_rate .core_clk f.max_speed_hz,
                 HwCall.clk_prepare_enable .core_clk, HwCall.clk_prepare_enable .iface_clk]
              else [])
          ++ [HwCall.disable_irq_wake (.gpio_to_irq f.irq_gpio)] ∧
    ((hw.core_clk_on = true ↔ f.clocks_enabled ≠ 0) →
      (hw.iface_clk_on = true ↔ f.clocks_enabled ≠ 0) →
      (fpc1020_resume (fpc1020_suspend f hw env).2.1 (fpc1020_suspend f hw env).2.2
          ClkEnv.ok).2.2.core_clk_on = hw.core_clk_on ∧
      (fpc1020_resume (fpc1020_suspend f hw env).2.1 (fpc1020_suspend f hw env).2.2
          ClkEnv.ok).2.2.iface_clk_on = hw.iface_clk_on) := by
  by_cases hz : f.clocks_enabled = 0
  · refine ⟨?_, ?_, ?_, ?_, ?_, ?_, ?_, ?_, ?_, ?_⟩
    · rfl
    · rfl
    · simp [fpc1020_suspend, hz, Hw.emit]
    · intro h; exact absurd hz h
    · rfl
    · rfl
    · intro _; simp [fpc1020_suspend, fpc1020_resume, hz, Hw.emit]
    · intro h; exact absurd hz h
    · simp [fpc1020_suspend, fpc1020_resume, hz, Hw.emit]
    · intro hc hi
      have hc2 : hw.core_clk_on = false := by simpa [hz] using hc
      have hi2 : hw.iface_clk_on = false := by simpa [hz] using hi
      simp [fpc1020_suspend, fpc1020_resume, hz, hc2, hi2, Hw.emit]
  · refine ⟨?_, ?_, ?_, ?_, ?_, ?_, ?_, ?_, ?_, ?_⟩
    · rfl
    · rfl
    · simp [fpc1020_suspend, hz, __set_clks, clk_disable_unprepare, Hw.emit, Hw.set_clk]
    · intro _
      simp [fpc1020_suspend, hz, __set_clks, clk_disable_unprepare, Hw.emit, Hw.set_clk]
    · rfl
    · rfl
    · intro h; exact absurd h hz
    · intro _
      by_cases h1 : env2.set_rate_rc = 0 <;> by_cases h2 : env2.core_enable_rc = 0 <;>
        by_cases h3 : env2.iface_enable_rc = 0 <;>
        simp [fpc1020_suspend, fpc1020_resume, hz, __set_clks, clk_set_rate,
          clk_prepare_enable, clk_disable_unprepare, Hw.emit, Hw.set_clk, h1, h2, h3,
          List.prefix_iff_eq_append]
    · simp [fpc1020_suspend, fpc1020_resume, hz, __set_clks, clk_set_rate, clk_prepare_enable,
        clk_disable_unprepare, ClkEnv.ok, Hw.emit, Hw.set_clk]
    · intro hc hi
      have hc2 : hw.core_clk_on = true := hc.mpr hz
      have hi2 : hw.iface_clk_on = true := hi.mpr hz
      simp [fpc1020_suspend, fpc1020_resume, hz, hc2, hi2, __set_clks, clk_set_rate,
        clk_prepare_enable, clk_disable_unprepare, ClkEnv.ok, Hw.emit, Hw.set_clk]

/-- Witness for C15 amended: the attach state after one successful enable
(counter 1, both clocks running); suspend and resume bring both clocks back. -/
theorem suspend_resume_restores_clocks_witness :
    (fpc1020_resume
        (fpc1020_suspend (set_clks (attach_state 17 18 4800000) Hw.attach ClkEnv.ok true).2.1
          (set_clks (attach_state 17 18 4800000) Hw.attach ClkEnv.ok true).2.2 ClkEnv.ok).2.1
        (fpc1020_suspend (set_clks (attach_state 17 18 4800000) Hw.attach ClkEnv.ok true).2.1
          (set_clks (attach_state 17 18 4800000) Hw.attach ClkEnv.ok true).2.2 ClkEnv.ok).2.2
        ClkEnv.ok).2.2.core_clk_on
      = (set_clks (attach_state 17 18 4800000) Hw.attach ClkEnv.ok true).2.2.core_clk_on :=
  ((suspend_resume_restores_clocks
      (set_clks (attach_state 17 18 4800000) Hw.attach ClkEnv.ok true).2.1
      (set_clks (attach_state 17 18 4800000) Hw.attach ClkEnv.ok true).2.2
      ClkEnv.ok ClkEnv.ok).2.2.2.2.2.2.2.2.2 (by decide) (by decide)).1

/-! ## Power resource set: handle accounting -/

/-- What one `vreg_setup` call on entry `i` does to the trace and the slots:
it only appends calls, and the slot count of entry `i` moves by the handles
those calls acquire minus the handles they release; other slots are
untouched. -/
theorem vreg_setup_balance (f : fpc1020_data) (hw : Hw) (env : VregEnv) (name : String)
    (enable : Bool) (i : Fin 3) (hl : vreg_lookup name = some i) :
    ∃ added : List HwCall,
      (vreg_setup f hw env name enable).2.2.trace = hw.trace ++ added ∧
      slot_count ((vreg_setup f hw env name enable).2.1.vreg i)
        = slot_count (f.vreg i) + (handles_acquired added : Int)
            - (handles_released added : Int) ∧
      ∀ j, j ≠ i → (vreg_setup f hw env name enable).2.1.vreg j = f.vreg j := by
  cases enable
  · rw [vreg_setup_disable_eq f hw env name i hl]
    refine ⟨release_calls (f.vreg i) env, rfl, ?_, ?_⟩
    · cases hs : f.vreg i with
      | none => simp [release_calls, slot_count, handles_acquired, handles_released]
      | some v =>
        by_cases he : env.is_enabled = 0 <;>
          simp [release_calls, slot_count, handles_acquired, handles_released, he]
    · intro j hj
      simp [Function.update_noteq hj]
  · cases hs : f.vreg i with
    | none =>
      cases hg : env.get_ret with
      | none =>
        refine ⟨[HwCall.regulator_get name none], ?_, ?_, ?_⟩
        · simp [vreg_setup, hl, hs, hg, Hw.emit]
        · simp [vreg_setup, hl, hs, hg, slot_count, handles_acquired, handles_released]
        · intro j _
          simp [vreg_setup, hl, hs, hg]
      | some v =>
        rw [vreg_setup_enable_of_handle f hw env name i v hl (Or.inr ⟨hs, hg⟩)]
        refine ⟨_, by simp only [List.append_assoc]; rfl, ?_, ?_⟩
        · by_cases hc : env.count_voltages > 0 <;> by_cases he : env.enable_rc = 0 <;>
            simp [slot_count, handles_acquired, handles_released, hs, hc, he]
        · intro j hj
          simp [Function.update_noteq hj]
    | some v =>
      rw [vreg_setup_enable_of_handle f hw env name i v hl (Or.inl hs)]
      refine ⟨_, by simp only [List.append_assoc]; rfl, ?_, ?_⟩
      · by_cases hc : env.count_voltages > 0 <;> by_cases he : env.enable_rc = 0 <;>
          simp [slot_count, handles_acquired, handles_released, hs, hc, he]
      · intro j hj
        simp [Function.update_noteq hj]

/-- One tracked call keeps "live handles of an entry = slot count of the
entry" for all three entries. -/
theorem vreg_setup_tracked_inv (s : fpc1020_data × Hw × (Fin 3 → Int)) (c : VregCall)
    (h : ∀ i, s.2.2 i = slot_count (s.1.vreg i)) :
    ∀ i, (vreg_setup_tracked s c).2.2 i = slot_count ((vreg_setup_tracked s c).1.vreg i) := by
  intro i
  cases hl : vreg_lookup c.name with
  | none => simp [vreg_setup_tracked, hl, vreg_setup, h i]
  | some k =>
    obtain ⟨added, ht, hk, hother⟩ := vreg_setup_balance s.1 s.2.1 c.env c.name c.enable k hl
    have hdrop : (vreg_setup s.1 s.2.1 c.env c.name c.enable).2.2.trace.drop s.2.1.trace.length
        = added := by
      rw [ht]; simp
    by_cases hik : i = k
    · subst hik
      simp only [vreg_setup_tracked, hl, hdrop, Function.update_same]
      rw [hk, h i]
    · simp only [vreg_setup_tracked, hl, Function.update_noteq hik]
      rw [hother i hik, h i]

/-- C16: starting from all slots empty, after each call of any sequence of
`vreg_setup` calls (any names, enable or disable, any outcomes of the
regulator calls), for each of the three table entries the number of handles
acquired on that entry and not yet released is 1 when the entry's slot holds a
handle and 0 when it is empty. -/
theorem vreg_setup_one_handle_per_slot (irq_gpio rst_gpio : Int) (max_speed_hz : Nat)
    (calls : List VregCall) (n : Nat) (i : Fin 3) :
    (run_vreg_setup (calls.take n)
        (attach_state irq_gpio rst_gpio max_speed_hz, Hw.attach, fun _ => 0)).2.2 i
      = if ((run_vreg_setup (calls.take n)
              (attach_state irq_gpio rst_gpio max_speed_hz, Hw.attach, fun _ => 0)).1.vreg
              i).isSome then 1 else 0 := by
  have hgen : ∀ (l : List VregCall) (s : fpc1020_data × Hw × (Fin 3 → Int)),
      (∀ k, s.2.2 k = slot_count (s.1.vreg k)) →
      ∀ k, (run_vreg_setup l s).2.2 k = slot_count ((run_vreg_setup l s).1.vreg k) := by
    intro l
    induction l with
    | nil => intro s hs; simpa [run_vreg_setup] using hs
    | cons c cs ih =>
      intro s hs
      have := ih (vreg_setup_tracked s c) (vreg_setup_tracked_inv s c hs)
      simpa [run_vreg_setup] using this
  have h0 : ∀ k, (attach_state irq_gpio rst_gpio max_speed_hz, Hw.attach,
      fun _ : Fin 3 => (0 : Int)).2.2 k
      = slot_count ((attach_state irq_gpio rst_gpio max_speed_hz, Hw.attach,
          fun _ : Fin 3 => (0 : Int)).1.vreg k) := by
    intro k; simp [attach_state, slot_count]
  exact hgen (calls.take n) _ h0 i

/-! ## Clock gate: call order -/

/-- Prefixes of `t ++ block` are ordered when the prefixes of `t` are and the
prefixes of `block`, replayed from where `t` ends, are. -/
theorem clk_ordered_append (t block : List HwCall) (st0 : Bool × Bool)
    (h1 : ∀ k, clk_ordered (clk_replay (t.take k) st0))
    (h2 : ∀ m, clk_ordered (clk_replay (block.take m) (clk_replay t st0))) :
    ∀ k, clk_ordered (clk_replay ((t ++ block).take k) st0) := by
  intro k
  rw [List.take_append_eq_append_take]
  by_cases hk : k ≤ t.length
  · have h0 : k - t.length = 0 := by omega
    simpa [h0] using h1 k
  · have ht : t.take k = t := List.take_of_length_le (by omega)
    have := h2 (k - t.length)
    simpa [clk_replay, ht, List.foldl_append] using this

/-- The enable sequence keeps the clock pair ordered at every point, from
both clocks off and from both clocks running. -/
theorem clk_ordered_enable_block (rate : Nat) (b : Bool) (m : Nat) :
    clk_ordered (clk_replay
      ([HwCall.clk_set_rate .core_clk rate, HwCall.clk_prepare_enable .core_clk,
        HwCall.clk_prepare_enable .iface_clk].take m) (b, b)) := by
  rcases m with _ | _ | _ | _ | m <;> simp [clk_ordered, clk_replay, clk_after]

/-- The disable sequence keeps the clock pair ordered at every point, from
both clocks off and from both clocks running. -/
theorem clk_ordered_disable_block (b : Bool) (m : Nat) :
    clk_ordered (clk_replay
      ([HwCall.clk_disable_unprepare .iface_clk,
        HwCall.clk_disable_unprepare .core_clk].take m) (b, b)) := by
  rcases m with _ | _ | _ | m <;> simp [clk_ordered, clk_replay, clk_after]

/-- What one successful `set_clks` call does to the hardware, whatever the
counter holds: nothing, the whole enable sequence, or the whole disable
sequence. -/
theorem set_clks_ok_hw (f : fpc1020_data) (hw : Hw) (enable : Bool) :
    (set_clks f hw ClkEnv.ok enable).2.2 = hw ∨
    ((set_clks f hw ClkEnv.ok enable).2.2.trace
        = hw.trace ++ [HwCall.clk_set_rate .core_clk f.max_speed_hz,
            HwCall.clk_prepare_enable .core_clk, HwCall.clk_prepare_enable .iface_clk] ∧
      (set_clks f hw ClkEnv.ok enable).2.2.core_clk_on = true ∧
      (set_clks f hw ClkEnv.ok enable).2.2.iface_clk_on = true) ∨
    ((set_clks f hw ClkEnv.ok enable).2.2.trace
        = hw.trace ++ [HwCall.clk_disable_unprepare .iface_clk,
            HwCall.clk_disable_unprepare .core_clk] ∧
      (set_clks f hw ClkEnv.ok enable).2.2.core_clk_on = false ∧
      (set_clks f hw ClkEnv.ok enable).2.2.iface_clk_on = false) := by
  cases enable
  · by_cases hz : f.clocks_enabled = 0
    · left; simp [set_clks, hz]
    · by_cases h1 : wrap_int (f.clocks_enabled - 1) = 0
      · right; right
        simp [set_clks, hz, h1, __set_clks, clk_disable_unprepare, Hw.emit, Hw.set_clk]
      · left; simp [set_clks, hz, h1]
  · by_cases hz : f.clocks_enabled = 0
    · right; left
      simp [set_clks, hz, __set_clks, clk_set_rate, clk_prepare_enable, ClkEnv.ok, Hw.emit,
        Hw.set_clk]
    · left; simp [set_clks, hz]

/-- One successful `set_clks` call keeps `clk_trace_inv`. -/
theorem clk_trace_inv_step (s : fpc1020_data × Hw) (enable : Bool)
    (ht : clk_trace_inv s) :
    clk_trace_inv (set_clks s.1 s.2 ClkEnv.ok enable).2 := by
  obtain ⟨hrep, heq, hord⟩ := ht
  rcases set_clks_ok_hw s.1 s.2 enable with h | ⟨htr, hc, hi⟩ | ⟨htr, hc, hi⟩
  · unfold clk_trace_inv
    rw [h]
    exact ⟨hrep, heq, hord⟩
  · refine ⟨?_, ?_, ?_⟩
    · rw [htr, hc, hi]
      simp [clk_replay, List.foldl_append, clk_after]
    · rw [hc, hi]
    · rw [htr]
      apply clk_ordered_append _ _ _ hord
      intro m
      rw [hrep, heq]
      exact clk_ordered_enable_block _ _ m
  · refine ⟨?_, ?_, ?_⟩
    · rw [htr, hc, hi]
      simp [clk_replay, List.foldl_append, clk_after]
    · rw [hc, hi]
    · rw [htr]
      apply clk_ordered_append _ _ _ hord
      intro m
      rw [hrep, heq]
      exact clk_ordered_disable_block _ m

/-- A run of successful calls from a state in `clk_trace_inv` ends in
`clk_trace_inv`. -/
theorem clk_trace_inv_run (calls : List Bool) (s : fpc1020_data × Hw)
    (ht : clk_trace_inv s) :
    clk_trace_inv (run_set_clks (calls.map fun b => (b, ClkEnv.ok)) s) := by
  induction calls generalizing s with
  | nil => simpa [run_set_clks] using ht
  | cons b bs ih =>
    have := ih _ (clk_trace_inv_step s b ht)
    simpa [run_set_clks] using this

/-- C18: with all clock calls succeeding, a 0-to-1 `set_clks` enable returns 0
with the counter at 1 and issues exactly `clk_set_rate(core_clk, max_speed_hz)`,
`clk_prepare_enable(core_clk)`, `clk_prepare_enable(iface_clk)` in that order;
a 1-to-0 disable returns 0 with the counter at 0 and issues exactly
`clk_disable_unprepare(iface_clk)`, `clk_disable_unprepare(core_clk)` in that
order; and along any run of successful calls from the attach state, after
every prefix of the calls issued, the interface clock is not running while the
core clock is stopped. -/
theorem set_clks_call_order (f : fpc1020_data) (hw : Hw) (irq_gpio rst_gpio : Int)
    (max_speed_hz : Nat) (calls : List Bool) (k : Nat) :
    (set_clks { f with clocks_enabled := 0 } hw ClkEnv.ok true).1 = 0 ∧
    (set_clks { f with clocks_enabled := 0 } hw ClkEnv.ok true).2.1.clocks_enabled = 1 ∧
    (set_clks { f with clocks_enabled := 0 } hw ClkEnv.ok true).2.2.trace
      = hw.trace ++ [HwCall.clk_set_rate .core_clk f.max_speed_hz,
          HwCall.clk_prepare_enable .core_clk, HwCall.clk_prepare_enable .iface_clk] ∧
    (set_clks { f with clocks_enabled := 1 } hw ClkEnv.ok false).1 = 0 ∧
    (set_clks { f with clocks_enabled := 1 } hw ClkEnv.ok false).2.1.clocks_enabled = 0 ∧
    (set_clks { f with clocks_enabled := 1 } hw ClkEnv.ok false).2.2.trace
      = hw.trace ++ [HwCall.clk_disable_unprepare .iface_clk,
          HwCall.clk_disable_unprepare .core_clk] ∧
    ((clk_replay
        ((run_set_clks (calls.map fun b => (b, ClkEnv.ok))
            (attach_state irq_gpio rst_gpio max_speed_hz, Hw.attach)).2.trace.take k)
        (false, false)).2 = true →
      (clk_replay
        ((run_set_clks (calls.map fun b => (b, ClkEnv.ok))
            (attach_state irq_gpio rst_gpio max_speed_hz, Hw.attach)).2.trace.take k)
        (false, false)).1 = true) := by
  have ht0 : clk_trace_inv (attach_state irq_gpio rst_gpio max_speed_hz, Hw.attach) := by
    simp [clk_trace_inv, Hw.attach, clk_replay, clk_ordered]
  have hrun := (clk_trace_inv_run calls _ ht0).2.2 k
  refine ⟨?_, ?_, ?_, ?_, ?_, ?_, hrun⟩ <;>
    simp [set_clks, wrap_int_zero, wrap_int_one, __set_clks, clk_set_rate,
      clk_prepare_enable, clk_disable_unprepare, ClkEnv.ok, Hw.emit, Hw.set_clk]

/-! ## IRQ gate: two calls at once -/

/-- Run alone, the two parts of a call are `set_fpc_irq`. -/
theorem set_fpc_irq_eq_locked_unlocked (f : fpc1020_data) (hw : Hw) (enable : Bool) :
    set_fpc_irq f hw enable
      = ((set_fpc_irq_locked f enable).2,
         set_fpc_irq_unlocked (set_fpc_irq_locked f enable).2 hw enable
           (set_fpc_irq_locked f enable).1) := by
  cases enable <;> cases hd : f.irq_disabled <;>
    simp [set_fpc_irq, set_fpc_irq_locked, set_fpc_irq_unlocked, hd]

/-- A thread that takes its two steps without the other thread in between
does what `set_fpc_irq` does. -/
theorem irq_thread_alone (f : fpc1020_data) (hw : Hw) (enable : Bool) :
    irq_thread_step (irq_thread_step f hw (.entered enable)).1
        (irq_thread_step f hw (.entered enable)).2.1
        (irq_thread_step f hw (.entered enable)).2.2
      = ((set_fpc_irq f hw enable).1, (set_fpc_irq f hw enable).2, .returned) := by
  rw [set_fpc_irq_eq_locked_unlocked]
  rfl

/-- Appending a call that is not an interrupt toggle keeps a trace free of
toggles. -/
theorem no_irq_toggle_append (t u : List HwCall) (ht : no_irq_toggle t = true)
    (hu : no_irq_toggle u = true) : no_irq_toggle (t ++ u) = true := by
  simp only [no_irq_toggle, List.all_append, Bool.and_eq_true] at *
  exact ⟨ht, hu⟩

/-- The process loop issues no interrupt toggle. -/
theorem no_irq_toggle_nice_loop (nice : Int) (procs : List Proc) :
    no_irq_toggle (set_fingerprint_hal_nice_loop nice procs).1 = true := by
  induction procs with
  | nil => rfl
  | cons p ps ih =>
    by_cases hm : memcmp p.comm "fps_work".data 9 = 0
    · simp [set_fingerprint_hal_nice_loop, hm, no_irq_toggle]
    · simpa [set_fingerprint_hal_nice_loop, hm] using ih

/-- `__set_clks` only appends clock calls. -/
theorem set_clks_hw_no_irq_toggle (f : fpc1020_data) (hw : Hw) (env : ClkEnv) (enable : Bool)
    (h : no_irq_toggle hw.trace = true) :
    no_irq_toggle (__set_clks f hw env enable).2.trace = true := by
  cases enable
  · simp only [__set_clks, clk_disable_unprepare, Hw.emit, Hw.set_clk, Bool.false_eq_true,
      if_false, List.append_assoc]
    exact no_irq_toggle_append _ _ h rfl
  · by_cases h1 : env.set_rate_rc = 0 <;> by_cases h2 : env.core_enable_rc = 0 <;>
      by_cases h3 : env.iface_enable_rc = 0 <;>
      simp only [__set_clks, clk_set_rate, clk_prepare_enable, clk_disable_unprepare, Hw.emit,
        Hw.set_clk, h1, h2, h3, if_true, if_false, ne_eq, not_true_eq_false,
        not_false_eq_true, List.append_assoc] <;>
      exact no_irq_toggle_append _ _ h rfl

/-- `set_clks` leaves the IRQ flag alone and only appends clock calls. -/
theorem set_clks_irq_inv (f : fpc1020_data) (hw : Hw) (env : ClkEnv) (enable : Bool)
    (hd : f.irq_disabled = false) (h : no_irq_toggle hw.trace = true) :
    (set_clks f hw env enable).2.1.irq_disabled = false ∧
    no_irq_toggle (set_clks f hw env enable).2.2.trace = true := by
  cases enable
  · by_cases hz : f.clocks_enabled = 0
    · simp [set_clks, hz, hd, h]
    · by_cases h1 : wrap_int (f.clocks_enabled - 1) = 0
      · simp only [set_clks, hz, h1, Bool.not_false, if_true, if_false]
        exact ⟨hd, set_clks_hw_no_irq_toggle _ _ _ _ h⟩
      · simp [set_clks, hz, h1, hd, h]
  · by_cases hz : f.clocks_enabled = 0
    · simp only [set_clks, hz, Bool.not_true, if_false, ne_eq, not_true_eq_false,
        Bool.false_eq_true]
      exact ⟨hd, set_clks_hw_no_irq_toggle _ _ _ _ h⟩
    · simp [set_clks, hz, hd, h]

/-- Every entry keeps the IRQ flag enabled and the trace free of interrupt
toggles. -/
theorem entry_step_irq_inv (s : fpc1020_data × Hw) (e : Entry)
    (hd : s.1.irq_disabled = false) (h : no_irq_toggle s.2.trace = true) :
    (entry_step s e).1.irq_disabled = false ∧
    no_irq_toggle (entry_step s e).2.trace = true := by
  cases e with
  | dev_enable_set buf count => exact ⟨hd, h⟩
  | clk_enable_set env buf count =>
    exact set_clks_irq_inv s.1 s.2 env _ hd h
  | irq_get line_value PAGE_SIZE =>
    refine ⟨hd, ?_⟩
    simp only [entry_step, irq_get, hd, gpio_get_value, Hw.emit, Bool.not_false, if_true]
    exact no_irq_toggle_append _ _ h rfl
  | screen_state_get PAGE_SIZE => exact ⟨hd, h⟩
  | fb_notifier_callback action blank =>
    rcases fb_notifier_ops_cases action blank with hops | ⟨v, hops⟩
    · simp only [entry_step, fb_notifier_callback, hops, List.foldl_nil]
      exact ⟨hd, h⟩
    · simp only [entry_step, fb_notifier_callback, hops, notif_ops_run]
      exact ⟨hd, no_irq_toggle_append _ _ h rfl⟩
  | pm_work procs =>
    by_cases hp : s.1.pm_work_pending = true
    · by_cases hs : s.1.screen_off = true
      · simp only [entry_step, run_pm_work, hp, if_true, fpc1020_suspend_resume, hs,
          set_fingerprint_hal_nice, Hw.emit]
        exact ⟨hd, no_irq_toggle_append _ _
          (no_irq_toggle_append _ _ h (no_irq_toggle_nice_loop _ _)) rfl⟩
      · simp only [entry_step, run_pm_work, hp, if_true, fpc1020_suspend_resume, hs,
          set_fingerprint_hal_nice, Hw.emit, set_fpc_irq, hd, Bool.not_false, Bool.not_true,
          if_false, Bool.false_eq_true]
        exact ⟨trivial, no_irq_toggle_append _ _
          (no_irq_toggle_append _ _ h (no_irq_toggle_nice_loop _ _)) rfl⟩
    · simp only [entry_step, run_pm_work, hp, if_false, Bool.false_eq_true]
      exact ⟨hd, h⟩
  | irq_handler =>
    refine ⟨hd, ?_⟩
    by_cases hs : s.1.screen_off = true
    · simp only [entry_step, fpc1020_irq_handler, hs, if_true, Hw.emit, List.append_assoc]
      exact no_irq_toggle_append _ _ h rfl
    · simp only [entry_step, fpc1020_irq_handler, hs, if_false, Hw.emit, Bool.false_eq_true]
      exact no_irq_toggle_append _ _ h rfl
  | suspend env =>
    refine ⟨hd, ?_⟩
    by_cases hz : s.1.clocks_enabled = 0
    · simp only [entry_step, fpc1020_suspend, hz, ne_eq, not_true_eq_false, if_false, Hw.emit]
      exact no_irq_toggle_append _ _ h rfl
    · simp only [entry_step, fpc1020_suspend, hz, ne_eq, not_false_eq_true, if_true, Hw.emit]
      exact no_irq_toggle_append _ _ (set_clks_hw_no_irq_toggle _ _ _ _ h) rfl
  | resume env =>
    refine ⟨hd, ?_⟩
    by_cases hz : s.1.clocks_suspended = 0
    · simp only [entry_step, fpc1020_resume, hz, ne_eq, not_true_eq_false, if_false, Hw.emit]
      exact no_irq_toggle_append _ _ h rfl
    · simp only [entry_step, fpc1020_resume, hz, ne_eq, not_false_eq_true, if_true, Hw.emit]
      exact no_irq_toggle_append _ _ (set_clks_hw_no_irq_toggle _ _ _ _ h) rfl

/-- A run of entries keeps the IRQ flag enabled and the trace free of
interrupt toggles. -/
theorem run_entries_irq_inv (es : List Entry) (s : fpc1020_data × Hw)
    (hd : s.1.irq_disabled = false) (h : no_irq_toggle s.2.trace = true) :
    (run_entries es s).1.irq_disabled = false ∧
    no_irq_toggle (run_entries es s).2.trace = true := by
  induction es generalizing s with
  | nil => exact ⟨hd, h⟩
  | cons e es ih =>
    have hstep := entry_step_irq_inv s e hd h
    have := ih (entry_step s e) hstep.1 hstep.2
    simpa [run_entries] using this

/-- A trace free of interrupt toggles holds no `enable_irq` and no
`disable_irq` call. -/
theorem not_mem_of_no_irq_toggle (t : List HwCall) (h : no_irq_toggle t = true) (irq : Irq) :
    HwCall.enable_irq irq ∉ t ∧ HwCall.disable_irq irq ∉ t := by
  simp only [no_irq_toggle, List.all_eq_true] at h
  constructor
  · intro hm
    have := h _ hm
    simp at this
  · intro hm
    have := h _ hm
    simp at this

/-- What `irq_get` writes into a page of at least 3 bytes. -/
theorem irq_get_buf (f : fpc1020_data) (hw : Hw) (line_value : Int) (PAGE_SIZE : Nat)
    (hpage : 3 ≤ PAGE_SIZE) :
    (irq_get f hw line_value PAGE_SIZE).2.1
      = if f.irq_disabled = false ∧ line_value ≠ 0 then ['1', '\n'] else ['0', '\n'] := by
  have h1 : fmt_d_nl 1 = ['1', '\n'] := by decide
  have h0 : fmt_d_nl 0 = ['0', '\n'] := by decide
  have ht : ∀ a b : Char, List.take (PAGE_SIZE - 1) [a, b] = [a, b] := by
    intro a b
    apply List.take_of_length_le
    simp
    omega
  cases hd : f.irq_disabled
  · by_cases hl : line_value = 0
    · simp [irq_get, hd, hl, gpio_get_value, scnprintf, h0, ht]
    · simp [irq_get, hd, hl, gpio_get_value, scnprintf, h1, ht]
  · simp [irq_get, hd, scnprintf, h0, ht]

/-- C20: in every state reached from the attach state through any sequence
of entry points (the four sysfs attributes, `fb_notifier_callback`, the
reconciliation task, the interrupt handler, suspend, resume) `irq_disabled` is
false; the trace holds no `enable_irq` and no `disable_irq` call; and
`irq_get`, with a page of at least 3 bytes, writes `"1\n"` exactly when the
GPIO line reads non-zero and `"0\n"` otherwise. -/
theorem irq_stays_logically_enabled (irq_gpio rst_gpio : Int) (max_speed_hz : Nat)
    (es : List Entry) :
    (run_entries es (attach_state irq_gpio rst_gpio max_speed_hz, Hw.attach)).1.irq_disabled
      = false ∧
    (∀ irq : Irq,
      HwCall.enable_irq irq ∉
        (run_entries es (attach_state irq_gpio rst_gpio max_speed_hz, Hw.attach)).2.trace ∧
      HwCall.disable_irq irq ∉
        (run_entries es (attach_state irq_gpio rst_gpio max_speed_hz, Hw.attach)).2.trace) ∧
    (∀ (line_value : Int) (PAGE_SIZE : Nat), 3 ≤ PAGE_SIZE →
      (irq_get (run_entries es (attach_state irq_gpio rst_gpio max_speed_hz, Hw.attach)).1
          (run_entries es (attach_state irq_gpio rst_gpio max_speed_hz, Hw.attach)).2
          line_value PAGE_SIZE).2.1
        = if line_value ≠ 0 then ['1', '\n'] else ['0', '\n']) := by
  have hinv := run_entries_irq_inv es
    (attach_state irq_gpio rst_gpio max_speed_hz, Hw.attach) rfl rfl
  refine ⟨hinv.1, not_mem_of_no_irq_toggle _ hinv.2, ?_⟩
  intro line_value PAGE_SIZE hpage
  rw [irq_get_buf _ _ _ _ hpage, hinv.1]
  simp

end Fpc1020
